import Mathlib

/-!
Formal model of the topobin binary TopoJSON codec.

The development embeds the encoder (`src/encoder.ts`), the decoder, the
version gate and the lazy `BinaryTopologyView` (`src/decoder.ts`) as pure
functions over byte lists (`List Nat`, one entry per byte).

Modelling conventions, matching JavaScript semantics:
* `DataView` accesses with `littleEndian = false` are big-endian reads and
  writes of the byte pattern; out-of-bounds access throws `RangeError`.
* Typed-array views (`Uint32Array`, `Int32Array`, `Float64Array`) use the
  platform byte order, little-endian on the mainstream platforms this
  library runs on; constructing one over a buffer throws `RangeError` when
  the byte offset is not a multiple of the element size or the view does
  not fit in the buffer.  Reading an element outside the view's length
  yields `undefined` in JavaScript; the model returns 0 there, a value the
  theorems below never observe because every access they depend on is in
  bounds.
* An IEEE-754 double is represented by its 64-bit pattern (a `Nat`);
  storing and re-reading a finite double preserves the pattern exactly, so
  byte-level identity is the right notion of bit-for-bit preservation.
* `ArrayBuffer`s are zero-initialised, so the regions the encoder skips
  (string-table padding, the 8-byte alignment padding) are zero bytes.
* The objects payload is opaque: `JSON.stringify({names, objects})` and the
  `objects` component of `JSON.parse` are parameters `jsonEnc` / `jsonDec`
  of the encoder and decoder, and object names are UTF-8 byte lists.
-/

deriving instance DecidableEq for Except

namespace Topobin

/-- Big-endian byte list (length `n`) of a natural number, mirroring
`DataView.setUint32/16` and `setFloat64` with `littleEndian = false`. -/
def be (n : Nat) (v : Nat) : List Nat :=
  match n with
  | 0 => []
  | m + 1 => be m (v / 256) ++ [v % 256]

/-- Little-endian byte list (length `n`) of a natural number, mirroring
typed-array element stores on a little-endian platform. -/
def le (n : Nat) (v : Nat) : List Nat :=
  match n with
  | 0 => []
  | m + 1 => v % 256 :: le m (v / 256)

/-- Value of a big-endian byte list. -/
def beVal (l : List Nat) : Nat :=
  l.foldl (fun a x => a * 256 + x) 0

/-- Value of a little-endian byte list. -/
def leVal (l : List Nat) : Nat :=
  l.foldr (fun x a => a * 256 + x) 0

/-- Round up to the next multiple of 4, as `Math.ceil(n / 4) * 4`. -/
def pad4 (n : Nat) : Nat := ((n + 3) / 4) * 4

/-- Two's-complement 32-bit pattern of an integer (`ToInt32` storage). -/
def twos32 (x : Int) : Nat := (x % 4294967296).toNat

/-- The 64-bit pattern of a coordinate stored without a transform.  The
coordinate is already carried as its IEEE-754 pattern, reduced mod 2^64. -/
def twos64 (x : Int) : Nat := (x % 18446744073709551616).toNat

/-- Signed value of a 32-bit pattern (`Int32Array` element read). -/
def toI32 (v : Nat) : Int :=
  if v < 2147483648 then (v : Int) else (v : Int) - 4294967296

/-- Read `n` bytes at `off`; `none` models an out-of-bounds `RangeError`. -/
def readBytesAt? (b : List Nat) (off n : Nat) : Option (List Nat) :=
  if off + n ≤ b.length then some ((b.drop off).take n) else none

/-- Model of `DataView.getUint32(off, false)`. -/
def readU32BE (b : List Nat) (off : Nat) : Option Nat :=
  (readBytesAt? b off 4).map beVal

/-- Model of `DataView.getUint16(off, false)`. -/
def readU16BE (b : List Nat) (off : Nat) : Option Nat :=
  (readBytesAt? b off 2).map beVal

/-- Model of `DataView.getFloat64(off, false)`, as the 64-bit pattern. -/
def readF64BE (b : List Nat) (off : Nat) : Option Nat :=
  (readBytesAt? b off 8).map beVal

/-- Model of `new Uint32Array(buffer, off, n)` followed by reading all `n`
elements: alignment and bounds checks, then little-endian 32-bit reads. -/
def readU32ArrayLE (b : List Nat) (off n : Nat) : Option (List Nat) :=
  if off % 4 = 0 ∧ off + 4 * n ≤ b.length then
    some ((List.range n).map (fun i => leVal ((b.drop (off + 4 * i)).take 4)))
  else none

/-- Model of `new Int32Array(buffer, off, n)` with all elements read. -/
def readI32ArrayLE (b : List Nat) (off n : Nat) : Option (List Int) :=
  if off % 4 = 0 ∧ off + 4 * n ≤ b.length then
    some ((List.range n).map (fun i => toI32 (leVal ((b.drop (off + 4 * i)).take 4))))
  else none

/-- Model of `new Float64Array(buffer, off, n)` with all elements read as
64-bit patterns (cast to `Int` so arc data has one carrier type). -/
def readF64ArrayLE (b : List Nat) (off n : Nat) : Option (List Int) :=
  if off % 8 = 0 ∧ off + 8 * n ≤ b.length then
    some ((List.range n).map (fun i => ((leVal ((b.drop (off + 8 * i)).take 8)) : Int)))
  else none

/-! Layout constants from `src/constants.ts`. -/

/-- Magic number identifying the format, "TOPO" in ASCII. -/
def MAGIC : Nat := 0x544F504F

/-- Current binary format version. -/
def VERSION : Nat := 1

/-- Minimum supported version. -/
def MIN_SUPPORTED_VERSION : Nat := 1

/-- Maximum supported version. -/
def MAX_SUPPORTED_VERSION : Nat := 1

/-- Flag bit 0: the topology carries a transform. -/
def FLAG_HAS_TRANSFORM : Nat := 1

/-- Flag bit 1: the topology carries a bbox. -/
def FLAG_HAS_BBOX : Nat := 2

/-! The data model from `src/types.ts` (shapes as used by the codec). -/

/-- Quantization transform; the four doubles are carried as bit patterns. -/
structure Transform where
  scale : Nat × Nat
  translate : Nat × Nat
  deriving DecidableEq

/-- A topology value.  Arc coordinates are integers: the quantized 32-bit
value when a transform is present, otherwise the 64-bit pattern of the
double.  `objects` is the insertion-ordered name-to-geometry map with
names as UTF-8 byte lists; geometries stay opaque (`Geom`). -/
structure Topology (Geom : Type) where
  arcs : List (List (Int × Int))
  objects : List (List Nat × Geom)
  transform : Option Transform
  bbox : Option (Nat × Nat × Nat × Nat)
  deriving DecidableEq

variable {Geom : Type}

/-! Encoder (`src/encoder.ts`). -/

/-- Number of arcs (`topology.arcs.length`). -/
def numArcs (t : Topology Geom) : Nat := t.arcs.length

/-- Sum of per-arc point counts (`arcs.reduce((sum, arc) => sum + arc.length, 0)`). -/
def totalArcPoints (t : Topology Geom) : Nat := (t.arcs.map List.length).sum

/-- String table: each object name as UTF-8 bytes followed by a zero byte,
in map iteration order (`buildStringTable`). -/
def buildStringTable (t : Topology Geom) : List Nat :=
  (t.objects.map Prod.fst).flatMap (fun name => name ++ [0])

/-- Flags word: bit 0 transform, bit 1 bbox. -/
def flagsOf (t : Topology Geom) : Nat :=
  (if t.transform.isSome then FLAG_HAS_TRANSFORM else 0) +
    (if t.bbox.isSome then FLAG_HAS_BBOX else 0)

/-- Bytes per coordinate: `Int32` when quantized, `Float64` otherwise. -/
def bytesPerCoord (t : Topology Geom) : Nat :=
  if t.transform.isSome then 4 else 8

/-- Offset of the string table: 24-byte header plus optional transform and
bbox blocks. -/
def stringTableStart (t : Topology Geom) : Nat :=
  24 + (if t.transform.isSome then 32 else 0) + (if t.bbox.isSome then 32 else 0)

/-- Offset of the arc-offset table: string table padded to 4 bytes. -/
def arcOffsetsStart (t : Topology Geom) : Nat :=
  stringTableStart t + pad4 (buildStringTable t).length

/-- Offset just past the arc-offset table. -/
def afterArcOffsets (t : Topology Geom) : Nat :=
  arcOffsetsStart t + (numArcs t + 1) * 4

/-- Start of arc data: the encoder inserts 4 padding bytes to reach 8-byte
alignment when coordinates are `Float64` and the offset is misaligned
(`if (bytesPerCoord === 8 && offset % 8 !== 0) offset += 4`). -/
def arcDataStart (t : Topology Geom) : Nat :=
  if bytesPerCoord t = 8 ∧ afterArcOffsets t % 8 ≠ 0 then
    afterArcOffsets t + 4
  else afterArcOffsets t

/-- Byte size of the arc-data section. -/
def arcDataSize (t : Topology Geom) : Nat :=
  totalArcPoints t * 2 * bytesPerCoord t

/-- The arc-offset table values: running point offset per arc, with the
total point count as final entry (the encoder's write loop, started at
accumulator `acc`). -/
def offsetsFrom (acc : Nat) : List (List (Int × Int)) → List Nat
  | [] => [acc]
  | arc :: rest => acc :: offsetsFrom (acc + arc.length) rest

/-- The arc-offset table of a topology. -/
def arcOffsetsList (arcs : List (List (Int × Int))) : List Nat :=
  offsetsFrom 0 arcs

/-- Bytes of the arc-offset table: `Uint32Array` stores, little-endian. -/
def arcOffsetsBytes (t : Topology Geom) : List Nat :=
  (arcOffsetsList t.arcs).flatMap (le 4)

/-- Bytes of the arc data: interleaved x,y per point, `Int32Array` stores
when quantized and `Float64Array` stores otherwise, little-endian. -/
def arcDataBytes (t : Topology Geom) : List Nat :=
  if t.transform.isSome then
    t.arcs.flatMap (fun arc => arc.flatMap (fun p => le 4 (twos32 p.1) ++ le 4 (twos32 p.2)))
  else
    t.arcs.flatMap (fun arc => arc.flatMap (fun p => le 8 (twos64 p.1) ++ le 8 (twos64 p.2)))

/-- Transform block: 4 doubles (scaleX, scaleY, translateX, translateY)
written big-endian by `setFloat64(..., false)`; empty when absent. -/
def transformBytes (t : Topology Geom) : List Nat :=
  match t.transform with
  | none => []
  | some tr => be 8 tr.scale.1 ++ be 8 tr.scale.2 ++ be 8 tr.translate.1 ++ be 8 tr.translate.2

/-- BBox block: 4 doubles written big-endian; empty when absent. -/
def bboxBytes (t : Topology Geom) : List Nat :=
  match t.bbox with
  | none => []
  | some bb => be 8 bb.1 ++ be 8 bb.2.1 ++ be 8 bb.2.2.1 ++ be 8 bb.2.2.2

/-- The 24-byte fixed header. -/
def headerBytes (t : Topology Geom) : List Nat :=
  be 4 MAGIC ++ be 2 VERSION ++ be 2 (flagsOf t) ++
    be 4 (numArcs t) ++ be 4 (totalArcPoints t) ++ be 4 t.objects.length ++
    be 4 (buildStringTable t).length

/-- The encoder `encode(topology)`.  The TypeScript function allocates a
zero-initialised `ArrayBuffer` of the computed total size and writes each
section at a running offset, skipping the string-table padding and the
8-byte alignment padding; since skipped bytes stay zero, the resulting
buffer is exactly this concatenation of the sections in write order with
explicit zero padding. -/
def encode (jsonEnc : List (List Nat × Geom) → List Nat) (t : Topology Geom) : List Nat :=
  headerBytes t ++
    transformBytes t ++
    bboxBytes t ++
    buildStringTable t ++
    List.replicate (pad4 (buildStringTable t).length - (buildStringTable t).length) 0 ++
    arcOffsetsBytes t ++
    List.replicate (arcDataStart t - afterArcOffsets t) 0 ++
    arcDataBytes t ++
    be 4 (jsonEnc t.objects).length ++
    jsonEnc t.objects

/-! Decoder and version gate (`src/decoder.ts`). -/

/-- The failure kinds of the read path: the two `Error`s thrown explicitly
by `decode` and the `BinaryTopologyView` constructor (bad magic,
unsupported version), the `RangeError` the runtime raises for
out-of-bounds or misaligned buffer access, and the `SyntaxError` of
`JSON.parse` on a malformed objects payload. -/
inductive DecodeError where
  | badMagic
  | unsupportedVersion (version : Nat)
  | rangeError
  | jsonError
  deriving DecidableEq

/-- Message of an error surfaced by the read path.  The first two mirror
the template strings in `decode`; the last two are raised by the runtime,
whose wording the library does not control. -/
def errorMessage : DecodeError → String
  | DecodeError.badMagic => "Invalid TopoJSON binary format: bad magic number"
  | DecodeError.unsupportedVersion v =>
      "Unsupported binary format version " ++ toString v ++
        (". This library supports versions " ++
          (toString MIN_SUPPORTED_VERSION ++ "-" ++ toString MAX_SUPPORTED_VERSION) ++
          ". Please upgrade the topobin library to decode this file.")
  | DecodeError.rangeError => ""
  | DecodeError.jsonError => ""

/-- Model of `getVersion(buffer)`: `null` when the buffer is shorter than
6 bytes or the magic does not match, otherwise the 16-bit version. -/
def getVersion (b : List Nat) : Option Nat :=
  if b.length < 6 then none
  else
    let magic := beVal ((b.drop 0).take 4)
    if magic ≠ MAGIC then none
    else some (beVal ((b.drop 4).take 2))

/-- Model of `isCompatibleVersion(buffer)`. -/
def isCompatibleVersion (b : List Nat) : Bool :=
  match getVersion b with
  | none => false
  | some v => MIN_SUPPORTED_VERSION ≤ v && v ≤ MAX_SUPPORTED_VERSION

/-- The header fields read by `decode` and the view constructor. -/
structure Header where
  flags : Nat
  numArcs : Nat
  totalArcPoints : Nat
  numObjects : Nat
  stringTableSize : Nat
  deriving DecidableEq

/-- The shared header-reading prefix of `decode` and the
`BinaryTopologyView` constructor (their source lines are identical):
magic check, version-range check, then the five fixed fields. -/
def readHeader (b : List Nat) : Except DecodeError Header :=
  match readU32BE b 0 with
  | none => Except.error DecodeError.rangeError
  | some magic =>
    if magic ≠ MAGIC then Except.error DecodeError.badMagic
    else
      match readU16BE b 4 with
      | none => Except.error DecodeError.rangeError
      | some version =>
        if version < MIN_SUPPORTED_VERSION ∨ MAX_SUPPORTED_VERSION < version then
          Except.error (DecodeError.unsupportedVersion version)
        else
          match readU16BE b 6, readU32BE b 8, readU32BE b 12, readU32BE b 16, readU32BE b 20 with
          | some flags, some na, some tp, some no, some sts =>
              Except.ok ⟨flags, na, tp, no, sts⟩
          | _, _, _, _, _ => Except.error DecodeError.rangeError

/-- Lift an optional runtime read, raising `RangeError` on failure. -/
def orRangeErr : Option α → Except DecodeError α
  | some a => Except.ok a
  | none => Except.error DecodeError.rangeError

/-- The transform block read by `decode` (4 big-endian doubles). -/
def readTransform (b : List Nat) (off : Nat) : Option Transform :=
  match readF64BE b off, readF64BE b (off + 8), readF64BE b (off + 16), readF64BE b (off + 24) with
  | some s0, some s1, some t0, some t1 => some ⟨(s0, s1), (t0, t1)⟩
  | _, _, _, _ => none

/-- The bbox block read by `decode` (4 big-endian doubles). -/
def readBBox (b : List Nat) (off : Nat) : Option (Nat × Nat × Nat × Nat) :=
  match readF64BE b off, readF64BE b (off + 8), readF64BE b (off + 16), readF64BE b (off + 24) with
  | some b0, some b1, some b2, some b3 => some (b0, b1, b2, b3)
  | _, _, _, _ => none

/-- Model of `parseStringTable`: split the bytes on zero separators; a
trailing chunk without terminator is dropped. -/
def parseStringTable (bytes : List Nat) : List (List Nat) :=
  (bytes.foldl
    (fun (acc : List (List Nat) × List Nat) x =>
      if x = 0 then (acc.1 ++ [acc.2], []) else (acc.1, acc.2 ++ [x]))
    ([], [])).1

/-- One arc sliced out of the shared coordinate array: points
`[start, stop)`, coordinates at `2j` and `2j+1` (out-of-range typed-array
reads yield `undefined` in JavaScript, 0 here; unreachable on the buffers
the theorems constrain). -/
def buildArc (data : List Int) (start stop : Nat) : List (Int × Int) :=
  (List.range (stop - start)).map
    (fun k => (data.getD (2 * (start + k)) 0, data.getD (2 * (start + k) + 1) 0))

/-- The conditional transform read of `decode`: 4 big-endian doubles when
the flag is set, nothing otherwise; an out-of-bounds read raises
`RangeError`. -/
def readTransformOpt (b : List Nat) (hasTr : Bool) : Except DecodeError (Option Transform) :=
  if hasTr then
    match readTransform b 24 with
    | some tr => Except.ok (some tr)
    | none => Except.error DecodeError.rangeError
  else Except.ok none

/-- The conditional bbox read of `decode`. -/
def readBBoxOpt (b : List Nat) (hasBB : Bool) (off : Nat) :
    Except DecodeError (Option (Nat × Nat × Nat × Nat)) :=
  if hasBB then
    match readBBox b off with
    | some bb => Except.ok (some bb)
    | none => Except.error DecodeError.rangeError
  else Except.ok none

/-- The coordinate-array read shared by `decode` and the view: an
`Int32Array` view when quantized, a `Float64Array` view otherwise. -/
def readArcDataEither (b : List Nat) (hasTr : Bool) (off npts : Nat) :
    Except DecodeError (List Int) :=
  if hasTr then orRangeErr (readI32ArrayLE b off (npts * 2))
  else orRangeErr (readF64ArrayLE b off (npts * 2))

/-- `JSON.parse` of the objects payload followed by taking `.objects`;
a parse failure surfaces as the runtime `SyntaxError`. -/
def parseObjectsPayload (jsonDec : List Nat → Option (List (List Nat × Geom)))
    (bytes : List Nat) : Except DecodeError (List (List Nat × Geom)) :=
  match jsonDec bytes with
  | some o => Except.ok o
  | none => Except.error DecodeError.jsonError

/-- Model of `decode(buffer)`.  `jsonDec` is the `objects` component of
`JSON.parse` over the payload bytes, `none` for a `SyntaxError`. -/
def decode (jsonDec : List Nat → Option (List (List Nat × Geom))) (b : List Nat) :
    Except DecodeError (Topology Geom) := do
  let h ← readHeader b
  let hasTr := (h.flags &&& FLAG_HAS_TRANSFORM) != 0
  let hasBB := (h.flags &&& FLAG_HAS_BBOX) != 0
  let transform ← readTransformOpt b hasTr
  let bbOff := 24 + (if hasTr then 32 else 0)
  let bbox ← readBBoxOpt b hasBB bbOff
  let stOff := bbOff + (if hasBB then 32 else 0)
  let stBytes ← orRangeErr (readBytesAt? b stOff h.stringTableSize)
  let _stringTable := parseStringTable stBytes
  let aoOff := stOff + pad4 h.stringTableSize
  let arcOffs ← orRangeErr (readU32ArrayLE b aoOff (h.numArcs + 1))
  let adOff := aoOff + (h.numArcs + 1) * 4
  let arcData ← readArcDataEither b hasTr adOff h.totalArcPoints
  let arcs := (List.range h.numArcs).map
    (fun i => buildArc arcData (arcOffs.getD i 0) (arcOffs.getD (i + 1) 0))
  let osOff := adOff + h.totalArcPoints * 2 * (if hasTr then 4 else 8)
  let objectsSize ← orRangeErr (readU32BE b osOff)
  let objectsBytes ← orRangeErr (readBytesAt? b (osOff + 4) objectsSize)
  let objects ← parseObjectsPayload jsonDec objectsBytes
  pure { arcs := arcs, objects := objects, transform := transform, bbox := bbox }

/-! Lazy view (`BinaryTopologyView`). -/

/-- The error raised by arc random access on an out-of-range index
(`Arc index out of bounds: ${index}`). -/
inductive ViewError where
  | indexError (index : Int)
  deriving DecidableEq

/-- The state of a constructed `BinaryTopologyView`: header-derived fields
plus the pre-parsed offset table and the coordinate view. -/
structure BinaryTopologyView where
  hasTransform : Bool
  numArcs : Nat
  arcOffsetsStart : Nat
  arcDataStart : Nat
  arcOffsets : List Nat
  arcData : List Int
  deriving DecidableEq

/-- The `BinaryTopologyView` constructor: same validation as `decode`,
then only the offset table and the coordinate view are materialised (the
string table is skipped without a bounds check, and the objects payload
is never touched). -/
def mkView (b : List Nat) : Except DecodeError BinaryTopologyView := do
  let h ← readHeader b
  let hasTr := (h.flags &&& FLAG_HAS_TRANSFORM) != 0
  let hasBB := (h.flags &&& FLAG_HAS_BBOX) != 0
  let aoOff := 24 + (if hasTr then 32 else 0) + (if hasBB then 32 else 0) +
    pad4 h.stringTableSize
  let arcOffs ← orRangeErr (readU32ArrayLE b aoOff (h.numArcs + 1))
  let adOff := aoOff + (h.numArcs + 1) * 4
  let arcData ← readArcDataEither b hasTr adOff h.totalArcPoints
  pure ⟨hasTr, h.numArcs, aoOff, adOff, arcOffs, arcData⟩

/-- `getArc(index)`: `IndexError` when `index < 0 || index >= numArcs`,
otherwise the arc sliced from the offset range. -/
def getArc (v : BinaryTopologyView) (index : Int) : Except ViewError (List (Int × Int)) :=
  if index < 0 ∨ (v.numArcs : Int) ≤ index then
    Except.error (ViewError.indexError index)
  else
    Except.ok (buildArc v.arcData (v.arcOffsets.getD index.toNat 0)
      (v.arcOffsets.getD (index.toNat + 1) 0))

/-- `getArcCount()`. -/
def getArcCount (v : BinaryTopologyView) : Nat := v.numArcs

/-! Concrete instantiations of the opaque objects payload, used to
evaluate the codec on explicit inputs: geometries are `Unit` and the
JSON payload is empty (its content never affects the properties below). -/

/-- A concrete payload serializer for explicit inputs. -/
def jsonEnc0 : List (List Nat × Unit) → List Nat := fun _ => []

/-- A concrete payload parser for explicit inputs, accepting anything. -/
def jsonDec0 : List Nat → Option (List (List Nat × Unit)) := fun _ => some []

/-- The empty topology: no arcs, no objects, no transform, no bbox. -/
def emptyTopo : Topology Unit := ⟨[], [], none, none⟩

/-- The example topology of the specification: two unquantized arcs
`[[[0,0],[1,1],[2,0]],[[2,0],[3,1]]]` and one object named `test`.
Coordinates are the IEEE-754 patterns of the doubles 0, 1, 2, 3
(0, 0x3FF0000000000000, 0x4000000000000000, 0x4008000000000000). -/
def specExampleTopo : Topology Unit :=
  ⟨[[(0, 0), (4607182418800017408, 4607182418800017408), (4611686018427387904, 0)],
    [(4611686018427387904, 0), (4613937818241073152, 4607182418800017408)]],
   [([116, 101, 115, 116], ())], none, none⟩

/-- A quantized topology: transform present, one arc with one point. -/
def trTopo : Topology Unit :=
  ⟨[[(1, 2)]], [], some ⟨(100, 200), (300, 400)⟩, none⟩

/-- The view constructed over `encode jsonEnc0 trTopo`. -/
def trView : BinaryTopologyView := ⟨true, 1, 56, 64, [0, 1], [1, 2]⟩

/-- A quantized topology with one named object (name bytes `[97, 98]`,
"ab"), so its string table is non-empty. -/
def nameTopo : Topology Unit :=
  ⟨[[(1, 2)]], [([97, 98], ())], some ⟨(100, 200), (300, 400)⟩, none⟩

/-- A 24-byte buffer with correct magic and version field 5. -/
def version5Buf : List Nat := be 4 MAGIC ++ be 2 5 ++ List.replicate 18 0

/-- A minimal 6-byte buffer with correct magic and version 1. -/
def gateBuf : List Nat := be 4 MAGIC ++ be 2 1

/-- Offset of the string table as computed from a decoded header. -/
def stringTableOffset (h : Header) : Nat :=
  24 + (if (h.flags &&& FLAG_HAS_TRANSFORM) != 0 then 32 else 0) +
    (if (h.flags &&& FLAG_HAS_BBOX) != 0 then 32 else 0)

/-- The string segment `seg` occurs inside `s`. -/
def containsSeg (s seg : String) : Prop := ∃ pre post, s = pre ++ seg ++ post

/-- Modelled from the spec: the buffer layout claimed in section 6 —
all sections contiguous in order with the string-table padding as the
only padding anywhere.  This is the comparison layout for the claim; it
differs from `encode` by omitting the encoder's 8-byte alignment
padding in front of `Float64` arc data. -/
def encodeClaimedLayout (jsonEnc : List (List Nat × Geom) → List Nat) (t : Topology Geom) :
    List Nat :=
  headerBytes t ++
    transformBytes t ++
    bboxBytes t ++
    buildStringTable t ++
    List.replicate (pad4 (buildStringTable t).length - (buildStringTable t).length) 0 ++
    arcOffsetsBytes t ++
    arcDataBytes t ++
    be 4 (jsonEnc t.objects).length ++
    jsonEnc t.objects

/-- All coordinates of all arcs, flattened in storage order x,y,x,y,…. -/
def flatCoords (arcs : List (List (Int × Int))) : List Int :=
  arcs.flatMap (fun arc => arc.flatMap (fun p => [p.1, p.2]))

/-- Stored bytes of one coordinate: 32-bit two's complement when
quantized, else the 64-bit pattern; little-endian either way. -/
def coordEnc (quantized : Bool) (c : Int) : List Nat :=
  if quantized then le 4 (twos32 c) else le 8 (twos64 c)

/-- Well-formed topology: the §3 invariant (quantized coordinates fit a
32-bit signed integer; unquantized coordinates are patterns of finite
doubles, i.e. the exponent field is not all ones), together with the
size constraints that are implicit in the JavaScript implementation
(counts and sizes stored in unsigned 32-bit header fields, double
patterns are 64-bit). -/
def wellFormed (t : Topology Geom) : Prop :=
  (t.transform.isSome = true →
    ∀ arc ∈ t.arcs, ∀ p ∈ arc,
      (-2147483648 ≤ p.1 ∧ p.1 < 2147483648) ∧ (-2147483648 ≤ p.2 ∧ p.2 < 2147483648))
  ∧ (t.transform = none →
    ∀ arc ∈ t.arcs, ∀ p ∈ arc,
      (0 ≤ p.1 ∧ p.1 < 18446744073709551616 ∧ (p.1.toNat / 4503599627370496) % 2048 ≠ 2047)
      ∧ (0 ≤ p.2 ∧ p.2 < 18446744073709551616 ∧ (p.2.toNat / 4503599627370496) % 2048 ≠ 2047))
  ∧ (match t.transform with
     | none => True
     | some tr =>
        tr.scale.1 < 18446744073709551616 ∧ tr.scale.2 < 18446744073709551616 ∧
        tr.translate.1 < 18446744073709551616 ∧ tr.translate.2 < 18446744073709551616)
  ∧ (match t.bbox with
     | none => True
     | some bb =>
        bb.1 < 18446744073709551616 ∧ bb.2.1 < 18446744073709551616 ∧
        bb.2.2.1 < 18446744073709551616 ∧ bb.2.2.2 < 18446744073709551616)
  ∧ numArcs t < 4294967296 ∧ totalArcPoints t < 4294967296
  ∧ t.objects.length < 4294967296 ∧ (buildStringTable t).length < 4294967296

/-! Basic facts about the byte primitives. -/

@[simp]
theorem length_be (n v : Nat) : (be n v).length = n := by
  induction n generalizing v with
  | zero => rfl
  | succ m ih => simp [be, ih]

@[simp]
theorem length_le (n v : Nat) : (le n v).length = n := by
  induction n generalizing v with
  | zero => rfl
  | succ m ih => simp [le, ih]

theorem beVal_be (n v : Nat) : beVal (be n v) = v % 256 ^ n := by
  induction n generalizing v with
  | zero => simp [be, beVal, Nat.mod_one]
  | succ m ih =>
    have hfold : beVal (be m (v / 256) ++ [v % 256]) =
        beVal (be m (v / 256)) * 256 + v % 256 := by
      simp [beVal, List.foldl_append]
    have hmul : v % (256 * 256 ^ m) = v % 256 + 256 * (v / 256 % 256 ^ m) := Nat.mod_mul
    have hpow : (256 : Nat) ^ (m + 1) = 256 * 256 ^ m := by ring
    simp only [be, hfold, ih, hpow]
    omega

theorem leVal_le (n v : Nat) : leVal (le n v) = v % 256 ^ n := by
  induction n generalizing v with
  | zero => simp [le, leVal, Nat.mod_one]
  | succ m ih =>
    have hmul : v % (256 * 256 ^ m) = v % 256 + 256 * (v / 256 % 256 ^ m) := Nat.mod_mul
    have hpow : (256 : Nat) ^ (m + 1) = 256 * 256 ^ m := by ring
    simp only [le, leVal, List.foldr_cons] at *
    rw [ih, hpow]
    omega

theorem le_pad4 (n : Nat) : n ≤ pad4 n := by
  unfold pad4; omega

theorem pad4_lt (n : Nat) : pad4 n < n + 4 := by
  unfold pad4; omega

theorem pad4_mod4 (n : Nat) : pad4 n % 4 = 0 := by
  unfold pad4; omega

/-! Section lengths. -/

theorem length_headerBytes (t : Topology Geom) : (headerBytes t).length = 24 := by
  simp [headerBytes]

theorem length_transformBytes (t : Topology Geom) :
    (transformBytes t).length = if t.transform.isSome then 32 else 0 := by
  cases h : t.transform <;> simp [transformBytes, h]

theorem length_bboxBytes (t : Topology Geom) :
    (bboxBytes t).length = if t.bbox.isSome then 32 else 0 := by
  cases h : t.bbox <;> simp [bboxBytes, h]

theorem length_flatMap_const {α : Type} (f : α → List Nat) (k : Nat)
    (hf : ∀ x, (f x).length = k) (l : List α) : (l.flatMap f).length = k * l.length := by
  induction l with
  | nil => simp
  | cons x xs ih => simp [List.flatMap_cons, ih, hf x]; ring

theorem length_offsetsFrom (acc : Nat) (arcs : List (List (Int × Int))) :
    (offsetsFrom acc arcs).length = arcs.length + 1 := by
  induction arcs generalizing acc with
  | nil => rfl
  | cons a rest ih => simp [offsetsFrom, ih]

theorem length_arcOffsetsBytes (t : Topology Geom) :
    (arcOffsetsBytes t).length = (numArcs t + 1) * 4 := by
  unfold arcOffsetsBytes arcOffsetsList
  rw [length_flatMap_const (le 4) 4 (fun x => length_le 4 x), length_offsetsFrom]
  unfold numArcs; ring

theorem length_nested_flatMap {α : Type} (g : α → List Nat) (k : Nat)
    (hg : ∀ p, (g p).length = k) (arcs : List (List α)) :
    (arcs.flatMap (fun a => a.flatMap g)).length = k * (arcs.map List.length).sum := by
  induction arcs with
  | nil => simp
  | cons a rest ih =>
    simp [List.flatMap_cons, ih, length_flatMap_const g k hg a]
    ring

theorem length_arcDataBytes (t : Topology Geom) :
    (arcDataBytes t).length = arcDataSize t := by
  unfold arcDataBytes arcDataSize bytesPerCoord totalArcPoints
  cases h : t.transform with
  | none =>
    simp only [h, Option.isSome_none, Bool.false_eq_true, if_false]
    rw [length_nested_flatMap _ 16 (by intro p; simp)]
    ring
  | some tr =>
    simp only [h, Option.isSome_some, if_true]
    rw [length_nested_flatMap _ 8 (by intro p; simp)]
    ring

theorem afterArcOffsets_le_arcDataStart (t : Topology Geom) :
    afterArcOffsets t ≤ arcDataStart t := by
  unfold arcDataStart; split <;> omega

theorem length_encode (jsonEnc : List (List Nat × Geom) → List Nat) (t : Topology Geom) :
    (encode jsonEnc t).length =
      arcDataStart t + arcDataSize t + 4 + (jsonEnc t.objects).length := by
  have h1 := afterArcOffsets_le_arcDataStart t
  have h2 := le_pad4 (buildStringTable t).length
  simp only [encode, List.length_append, length_headerBytes, length_transformBytes,
    length_bboxBytes, List.length_replicate, length_arcOffsetsBytes, length_arcDataBytes,
    length_be]
  unfold afterArcOffsets arcOffsetsStart stringTableStart at *
  omega

/-! Reading back from a concatenation. -/

theorem extract_mid (pre d post : List Nat) :
    readBytesAt? (pre ++ (d ++ post)) pre.length d.length = some d := by
  unfold readBytesAt?
  rw [if_pos (by simp only [List.length_append]; omega)]
  rw [List.drop_left, List.take_left]

theorem readBytesAt?_append_right (a b : List Nat) (off n : Nat) (h : a.length ≤ off) :
    readBytesAt? (a ++ b) off n = readBytesAt? b (off - a.length) n := by
  unfold readBytesAt?
  have hdrop : (a ++ b).drop off = b.drop (off - a.length) := by
    rw [List.drop_append_eq_append_drop, List.drop_eq_nil_of_le h, List.nil_append]
  by_cases hc : off - a.length + n ≤ b.length
  · rw [if_pos (by simp; omega), if_pos hc, hdrop]
  · rw [if_neg (by simp; omega), if_neg hc]

theorem readBytesAt?_append_left (a b : List Nat) (off n : Nat) (h : off + n ≤ a.length) :
    readBytesAt? (a ++ b) off n = readBytesAt? a off n := by
  unfold readBytesAt?
  rw [if_pos (by simp; omega), if_pos h]
  congr 1
  rw [List.drop_append_eq_append_drop, List.take_append_eq_append_take]
  have h0 : n - (a.drop off).length = 0 := by simp; omega
  rw [h0, List.take_zero, List.append_nil]

theorem drop_flatMap_chunk {α : Type} (f : α → List Nat) (k : Nat)
    (hf : ∀ x, (f x).length = k) (i : Nat) (l : List α) :
    (l.flatMap f).drop (k * i) = (l.drop i).flatMap f := by
  induction i generalizing l with
  | zero => simp
  | succ m ih =>
    cases l with
    | nil => simp
    | cons x xs =>
      rw [List.flatMap_cons,
        show k * (m + 1) = (f x).length + k * m from by rw [hf x]; ring,
        ← List.drop_drop, List.drop_left, ih xs]
      rfl

theorem readBytesAt?_flatMap {α : Type} (f : α → List Nat) (k : Nat) (d0 : α)
    (hf : ∀ x, (f x).length = k) (pre post : List Nat) (l : List α) (i : Nat)
    (hi : i < l.length) :
    readBytesAt? (pre ++ (l.flatMap f ++ post)) (pre.length + k * i) k =
      some (f (l.getD i d0)) := by
  rw [readBytesAt?_append_right _ _ _ _ (by omega)]
  have hoff : pre.length + k * i - pre.length = k * i := by omega
  rw [hoff]
  have hlen : k * i ≤ (l.flatMap f).length := by
    rw [length_flatMap_const f k hf]
    exact Nat.mul_le_mul_left k (Nat.le_of_lt hi)
  have hdrop : (l.flatMap f ++ post).drop (k * i) = (l.drop i).flatMap f ++ post := by
    rw [List.drop_append_eq_append_drop, drop_flatMap_chunk f k hf i l,
      Nat.sub_eq_zero_of_le hlen, List.drop_zero]
  have hcons : l.drop i = l.getD i d0 :: l.drop (i + 1) := by
    rw [List.getD_eq_getElem l d0 hi]
    exact List.drop_eq_getElem_cons hi
  unfold readBytesAt?
  rw [if_pos]
  · rw [hdrop, hcons, List.flatMap_cons, List.append_assoc, ← hf (l.getD i d0),
      List.take_left]
  · rw [List.length_append, length_flatMap_const f k hf]
    have : i + 1 ≤ l.length := hi
    calc k * i + k = k * (i + 1) := by ring
    _ ≤ k * l.length := Nat.mul_le_mul_left k this
    _ ≤ k * l.length + post.length := Nat.le_add_right _ _

/-! Facts about the arc-offset table values. -/

theorem offsetsFrom_getD_zero (acc : Nat) (arcs : List (List (Int × Int))) :
    (offsetsFrom acc arcs).getD 0 0 = acc := by
  cases arcs <;> rfl

theorem offsetsFrom_getD_last (acc : Nat) (arcs : List (List (Int × Int))) :
    (offsetsFrom acc arcs).getD arcs.length 0 = acc + (arcs.map List.length).sum := by
  induction arcs generalizing acc with
  | nil => simp [offsetsFrom]
  | cons a rest ih =>
    simp only [offsetsFrom, List.length_cons, List.map_cons, List.sum_cons]
    rw [List.getD_cons_succ, ih]
    ring_nf

theorem offsetsFrom_getD_succ (acc : Nat) (arcs : List (List (Int × Int))) (i : Nat)
    (hi : i < arcs.length) :
    (offsetsFrom acc arcs).getD (i + 1) 0 =
      (offsetsFrom acc arcs).getD i 0 + (arcs.getD i []).length := by
  induction arcs generalizing acc i with
  | nil => simp at hi
  | cons a rest ih =>
    cases i with
    | zero =>
      simp only [offsetsFrom, List.getD_cons_succ, List.getD_cons_zero]
      rw [offsetsFrom_getD_zero]
    | succ m =>
      simp only [offsetsFrom, List.getD_cons_succ]
      exact ih (acc + a.length) m (by simpa using hi)

theorem offsetsFrom_mono (acc : Nat) (arcs : List (List (Int × Int))) (i j : Nat)
    (hij : i ≤ j) (hj : j ≤ arcs.length) :
    (offsetsFrom acc arcs).getD i 0 ≤ (offsetsFrom acc arcs).getD j 0 := by
  induction arcs generalizing acc i j with
  | nil =>
    have hj0 : j = 0 := by simpa using hj
    have hi0 : i = 0 := by omega
    subst hj0; subst hi0
    exact Nat.le_refl _
  | cons a rest ih =>
    cases j with
    | zero =>
      have hi0 : i = 0 := by omega
      subst hi0
      exact Nat.le_refl _
    | succ m =>
      cases i with
      | zero =>
        simp only [offsetsFrom, List.getD_cons_zero, List.getD_cons_succ]
        calc acc ≤ acc + a.length := Nat.le_add_right _ _
        _ = (offsetsFrom (acc + a.length) rest).getD 0 0 := (offsetsFrom_getD_zero _ _).symm
        _ ≤ (offsetsFrom (acc + a.length) rest).getD m 0 :=
            ih (acc + a.length) 0 m (Nat.zero_le _) (by simpa using hj)
      | succ p =>
        simp only [offsetsFrom, List.getD_cons_succ]
        exact ih (acc + a.length) p m (by omega) (by simpa using hj)

theorem offsetsFrom_le_total (acc : Nat) (arcs : List (List (Int × Int))) (i : Nat) :
    (offsetsFrom acc arcs).getD i 0 ≤ acc + (arcs.map List.length).sum := by
  by_cases hi : i ≤ arcs.length
  · calc (offsetsFrom acc arcs).getD i 0 ≤ (offsetsFrom acc arcs).getD arcs.length 0 :=
        offsetsFrom_mono acc arcs i arcs.length hi (Nat.le_refl _)
    _ = acc + (arcs.map List.length).sum := offsetsFrom_getD_last acc arcs
  · rw [List.getD_eq_default]
    · exact Nat.zero_le _
    · rw [length_offsetsFrom]; omega

/-! Arc data as a flat coordinate list. -/

theorem inner_pair_flatMap (enc : Int → List Nat) (a : List (Int × Int)) :
    a.flatMap (fun p => enc p.1 ++ enc p.2) =
      (a.flatMap (fun p => [p.1, p.2])).flatMap enc := by
  induction a with
  | nil => rfl
  | cons p ps ih => simp [List.flatMap_cons, List.flatMap_append, ih]

theorem nested_pair_flatMap (enc : Int → List Nat) (arcs : List (List (Int × Int))) :
    arcs.flatMap (fun arc => arc.flatMap (fun p => enc p.1 ++ enc p.2)) =
      (arcs.flatMap (fun arc => arc.flatMap (fun p => [p.1, p.2]))).flatMap enc := by
  induction arcs with
  | nil => rfl
  | cons a rest ih =>
    simp only [List.flatMap_cons, List.flatMap_append, ih, inner_pair_flatMap enc a]

theorem arcDataBytes_eq_flat (t : Topology Geom) :
    arcDataBytes t = (flatCoords t.arcs).flatMap (coordEnc t.transform.isSome) := by
  unfold arcDataBytes flatCoords
  cases h : t.transform with
  | none =>
    simp only [h, Option.isSome_none, Bool.false_eq_true, if_false]
    rw [nested_pair_flatMap (fun c => le 8 (twos64 c))]
    rfl
  | some tr =>
    simp only [h, Option.isSome_some, if_true]
    rw [nested_pair_flatMap (fun c => le 4 (twos32 c))]
    rfl

/-! Alignment of the section offsets. -/

theorem stringTableStart_mod4 (t : Topology Geom) : stringTableStart t % 4 = 0 := by
  unfold stringTableStart
  split <;> split <;> rfl

theorem arcOffsetsStart_mod4 (t : Topology Geom) : arcOffsetsStart t % 4 = 0 := by
  have h1 := stringTableStart_mod4 t
  have h2 := pad4_mod4 (buildStringTable t).length
  unfold arcOffsetsStart
  omega

theorem readBytesAt?_some_eq (b : List Nat) (off n : Nat) (y : List Nat)
    (h : readBytesAt? b off n = some y) : (b.drop off).take n = y := by
  unfold readBytesAt? at h
  by_cases hc : off + n ≤ b.length
  · rw [if_pos hc] at h; exact Option.some_injective _ h
  · rw [if_neg hc] at h; exact absurd h (by simp)

theorem readBytesAt?_some_le (b : List Nat) (off n : Nat) (y : List Nat)
    (h : readBytesAt? b off n = some y) : off + n ≤ b.length := by
  unfold readBytesAt? at h
  by_cases hc : off + n ≤ b.length
  · exact hc
  · rw [if_neg hc] at h; exact absurd h (by simp)

/-! Error propagation through the read path. -/

theorem decode_readHeader_error (jsonDec : List Nat → Option (List (List Nat × Geom)))
    (b : List Nat) (e : DecodeError) (hh : readHeader b = Except.error e) :
    decode jsonDec b = Except.error e := by
  unfold decode
  rw [hh]
  rfl

theorem readHeader_error_badMagic (b : List Nat) (m : Nat) (h1 : readU32BE b 0 = some m)
    (h2 : m ≠ MAGIC) : readHeader b = Except.error DecodeError.badMagic := by
  unfold readHeader
  rw [h1]
  dsimp only
  rw [if_pos h2]

theorem readHeader_error_version (b : List Nat) (v : Nat)
    (h1 : readU32BE b 0 = some MAGIC) (h2 : readU16BE b 4 = some v)
    (h3 : v < MIN_SUPPORTED_VERSION ∨ MAX_SUPPORTED_VERSION < v) :
    readHeader b = Except.error (DecodeError.unsupportedVersion v) := by
  unfold readHeader
  rw [h1]
  dsimp only
  rw [if_neg (by simp), h2]
  dsimp only
  rw [if_pos h3]

theorem readHeader_short (b : List Nat) (h : b.length < 6) :
    readHeader b = Except.error DecodeError.badMagic ∨
    readHeader b = Except.error DecodeError.rangeError := by
  unfold readHeader
  cases h4 : readU32BE b 0 with
  | none => right; rfl
  | some m =>
    dsimp only
    by_cases hm : m ≠ MAGIC
    · rw [if_pos hm]; left; rfl
    · rw [if_neg hm]
      have h6 : readU16BE b 4 = none := by
        unfold readU16BE readBytesAt?
        rw [if_neg (by omega)]
        rfl
      rw [h6]
      right
      rfl

theorem strAppendAssoc (a b c : String) : a ++ b ++ c = a ++ (b ++ c) := by
  apply String.ext
  simp [List.append_assoc]

/-! Claim theorems. -/

set_option maxRecDepth 8000 in
/-- C1: the claim states that `decode(encode(T))` is value-equal to `T`
for every well-formed topology.  The code violates this: on the
specification's own example topology (two unquantized arcs, one object
named `test`) the encoder inserts 4 alignment-padding bytes between the
arc-offset table and the `Float64` arc data, but the decoder never skips
them, so it constructs its `Float64Array` at misaligned byte offset 44
and the decode throws a `RangeError` instead of returning the topology. -/
theorem c1_roundtrip_fails_on_spec_example :
    decode jsonDec0 (encode jsonEnc0 specExampleTopo) =
      Except.error DecodeError.rangeError := by decide

set_option maxRecDepth 8000 in
/-- C2: the claim states that a zero-arc topology decodes back to an
empty arc list without error.  Without a transform this fails: for the
empty topology the arc data would start at misaligned offset 28, the
encoder pads to 32, the decoder does not skip the pad, and decoding
throws a `RangeError`. -/
theorem c2_empty_topology_roundtrip_fails :
    decode jsonDec0 (encode jsonEnc0 emptyTopo) =
      Except.error DecodeError.rangeError := by decide

set_option maxRecDepth 8000 in
/-- C3, counterexample: on the empty topology the encoder's buffer is not
the claimed layout with the string-table padding as the only padding —
it contains 4 extra alignment-padding bytes in front of the arc data. -/
theorem c3_counterexample :
    encode jsonEnc0 emptyTopo ≠ encodeClaimedLayout jsonEnc0 emptyTopo := by decide

set_option maxRecDepth 8000 in
/-- C4, counterexample: the second arc-offset-table entry of the encoded
quantized one-point topology holds the value 1 as the little-endian
bytes `[1,0,0,0]`, not as the big-endian encoding claimed. -/
theorem c4_counterexample :
    readBytesAt? (encode jsonEnc0 trTopo) (arcOffsetsStart trTopo + 4) 4 =
      some [1, 0, 0, 0]
    ∧ (arcOffsetsList trTopo.arcs).getD 1 0 = 1
    ∧ [1, 0, 0, 0] ≠ be 4 1 := by decide

/-- C5: `getVersion` returns `none` exactly when the buffer is shorter
than 6 bytes or its first 4 bytes are not the magic constant, and
otherwise returns the big-endian 16-bit value at bytes 4–5; it is a total
function.  `isCompatibleVersion` is true iff `getVersion` returns a value
in `[MIN_SUPPORTED_VERSION, MAX_SUPPORTED_VERSION]`, both of which are 1. -/
theorem c5_version_gate (b : List Nat) :
    (getVersion b = none ↔ b.length < 6 ∨ beVal ((b.drop 0).take 4) ≠ MAGIC)
    ∧ (6 ≤ b.length → beVal ((b.drop 0).take 4) = MAGIC →
        getVersion b = some (beVal ((b.drop 4).take 2)))
    ∧ (isCompatibleVersion b = true ↔
        ∃ v, getVersion b = some v ∧
          MIN_SUPPORTED_VERSION ≤ v ∧ v ≤ MAX_SUPPORTED_VERSION)
    ∧ MIN_SUPPORTED_VERSION = 1 ∧ MAX_SUPPORTED_VERSION = 1 := by
  refine ⟨?_, ?_, ?_, rfl, rfl⟩
  · unfold getVersion
    by_cases h1 : b.length < 6
    · rw [if_pos h1]
      exact iff_of_true rfl (Or.inl h1)
    · rw [if_neg h1]
      dsimp only
      by_cases h2 : beVal ((b.drop 0).take 4) = MAGIC
      · rw [if_neg (not_not_intro h2)]
        refine iff_of_false (by simp) ?_
        push_neg
        exact ⟨by omega, h2⟩
      · rw [if_pos h2]
        exact iff_of_true rfl (Or.inr h2)
  · intro h1 h2
    unfold getVersion
    rw [if_neg (by omega)]
    dsimp only
    rw [if_neg (not_not_intro h2)]
  · cases hgv : getVersion b with
    | none =>
      unfold isCompatibleVersion
      rw [hgv]
      simp
    | some v =>
      unfold isCompatibleVersion
      rw [hgv]
      simp

/-- C5 witness: on the 6-byte buffer with correct magic and version 1 the
gate returns the version and reports compatibility. -/
theorem c5_version_gate_witness :
    getVersion gateBuf = some (beVal ((gateBuf.drop 4).take 2)) ∧
    isCompatibleVersion gateBuf = true := by
  refine ⟨(c5_version_gate gateBuf).2.1 (by decide) (by decide), ?_⟩
  exact ((c5_version_gate gateBuf).2.2.1).mpr ⟨1, by decide, by decide, by decide⟩

/-- C6: `decode` fails with one of the two `FormatError` conditions (bad
magic or the runtime `RangeError`) on buffers shorter than the 6-byte
version prefix; with bad magic whenever the first word is not the magic
constant; and with a `VersionError` carrying the offending version when
the version is outside `[1,1]`, whose message contains the version and
the supported range `1-1`.  In particular, the 24-byte buffer with valid
magic and version 5 produces exactly that error and message. -/
theorem c6_decode_errors (jsonDec : List Nat → Option (List (List Nat × Geom))) :
    (∀ b : List Nat, b.length < 6 →
        decode jsonDec b = Except.error DecodeError.badMagic ∨
        decode jsonDec b = Except.error DecodeError.rangeError)
    ∧ (∀ b m, readU32BE b 0 = some m → m ≠ MAGIC →
        decode jsonDec b = Except.error DecodeError.badMagic)
    ∧ (∀ b v, readU32BE b 0 = some MAGIC → readU16BE b 4 = some v →
        (v < MIN_SUPPORTED_VERSION ∨ MAX_SUPPORTED_VERSION < v) →
        decode jsonDec b = Except.error (DecodeError.unsupportedVersion v))
    ∧ (∀ v : Nat,
        containsSeg (errorMessage (DecodeError.unsupportedVersion v)) (toString v) ∧
        containsSeg (errorMessage (DecodeError.unsupportedVersion v)) "1-1")
    ∧ decode jsonDec version5Buf = Except.error (DecodeError.unsupportedVersion 5)
    ∧ errorMessage (DecodeError.unsupportedVersion 5) =
        "Unsupported binary format version 5. This library supports versions 1-1. Please upgrade the topobin library to decode this file." := by
  have hver : ∀ (b : List Nat) (v : Nat), readU32BE b 0 = some MAGIC →
      readU16BE b 4 = some v →
      (v < MIN_SUPPORTED_VERSION ∨ MAX_SUPPORTED_VERSION < v) →
      decode jsonDec b = Except.error (DecodeError.unsupportedVersion v) :=
    fun b v h1 h2 h3 =>
      decode_readHeader_error jsonDec b _ (readHeader_error_version b v h1 h2 h3)
  refine ⟨?_, ?_, hver, ?_, ?_, ?_⟩
  · intro b hb
    rcases readHeader_short b hb with h | h
    · exact Or.inl (decode_readHeader_error jsonDec b _ h)
    · exact Or.inr (decode_readHeader_error jsonDec b _ h)
  · intro b m h1 h2
    exact decode_readHeader_error jsonDec b _ (readHeader_error_badMagic b m h1 h2)
  · intro v
    constructor
    · exact ⟨"Unsupported binary format version ",
        ". This library supports versions " ++
          (toString MIN_SUPPORTED_VERSION ++ "-" ++ toString MAX_SUPPORTED_VERSION) ++
          ". Please upgrade the topobin library to decode this file.", rfl⟩
    · refine ⟨"Unsupported binary format version " ++ toString v ++
        ". This library supports versions ",
        ". Please upgrade the topobin library to decode this file.", ?_⟩
      have hR : toString MIN_SUPPORTED_VERSION ++ "-" ++ toString MAX_SUPPORTED_VERSION =
          ("1-1" : String) := rfl
      unfold errorMessage
      rw [hR]
      simp only [strAppendAssoc]
  · exact hver version5Buf 5 (by decide) (by decide) (by decide)
  · rfl

/-- C6 witness: the three error paths at concrete buffers — a 1-byte
buffer, a 6-byte buffer with wrong magic, and the 24-byte version-5
buffer. -/
theorem c6_decode_errors_witness :
    (decode jsonDec0 [0] = Except.error DecodeError.badMagic ∨
     decode jsonDec0 [0] = Except.error DecodeError.rangeError)
    ∧ decode jsonDec0 [1, 2, 3, 4, 0, 0] = Except.error DecodeError.badMagic
    ∧ decode jsonDec0 version5Buf = Except.error (DecodeError.unsupportedVersion 5) := by
  refine ⟨(c6_decode_errors jsonDec0).1 [0] (by decide), ?_, ?_⟩
  · exact (c6_decode_errors jsonDec0).2.1 [1, 2, 3, 4, 0, 0] 16909060 (by decide) (by decide)
  · exact (c6_decode_errors jsonDec0).2.2.1 version5Buf 5 (by decide) (by decide) (by decide)

/-- Extraction of each chunk of a ten-chunk concatenation at its
cumulative offset. -/
theorem concat10_extract (s1 s2 s3 s4 s5 s6 s7 s8 s9 s10 : List Nat) :
    readBytesAt? (s1 ++ s2 ++ s3 ++ s4 ++ s5 ++ s6 ++ s7 ++ s8 ++ s9 ++ s10)
      0 s1.length = some s1
    ∧ readBytesAt? (s1 ++ s2 ++ s3 ++ s4 ++ s5 ++ s6 ++ s7 ++ s8 ++ s9 ++ s10)
      s1.length s2.length = some s2
    ∧ readBytesAt? (s1 ++ s2 ++ s3 ++ s4 ++ s5 ++ s6 ++ s7 ++ s8 ++ s9 ++ s10)
      (s1.length + s2.length) s3.length = some s3
    ∧ readBytesAt? (s1 ++ s2 ++ s3 ++ s4 ++ s5 ++ s6 ++ s7 ++ s8 ++ s9 ++ s10)
      (s1.length + s2.length + s3.length) s4.length = some s4
    ∧ readBytesAt? (s1 ++ s2 ++ s3 ++ s4 ++ s5 ++ s6 ++ s7 ++ s8 ++ s9 ++ s10)
      (s1.length + s2.length + s3.length + s4.length) s5.length = some s5
    ∧ readBytesAt? (s1 ++ s2 ++ s3 ++ s4 ++ s5 ++ s6 ++ s7 ++ s8 ++ s9 ++ s10)
      (s1.length + s2.length + s3.length + s4.length + s5.length) s6.length = some s6
    ∧ readBytesAt? (s1 ++ s2 ++ s3 ++ s4 ++ s5 ++ s6 ++ s7 ++ s8 ++ s9 ++ s10)
      (s1.length + s2.length + s3.length + s4.length + s5.length + s6.length)
      s7.length = some s7
    ∧ readBytesAt? (s1 ++ s2 ++ s3 ++ s4 ++ s5 ++ s6 ++ s7 ++ s8 ++ s9 ++ s10)
      (s1.length + s2.length + s3.length + s4.length + s5.length + s6.length + s7.length)
      s8.length = some s8
    ∧ readBytesAt? (s1 ++ s2 ++ s3 ++ s4 ++ s5 ++ s6 ++ s7 ++ s8 ++ s9 ++ s10)
      (s1.length + s2.length + s3.length + s4.length + s5.length + s6.length + s7.length +
        s8.length) s9.length = some s9
    ∧ readBytesAt? (s1 ++ s2 ++ s3 ++ s4 ++ s5 ++ s6 ++ s7 ++ s8 ++ s9 ++ s10)
      (s1.length + s2.length + s3.length + s4.length + s5.length + s6.length + s7.length +
        s8.length + s9.length) s10.length = some s10 := by
  refine ⟨?_, ?_, ?_, ?_, ?_, ?_, ?_, ?_, ?_, ?_⟩
  · have h : s1 ++ s2 ++ s3 ++ s4 ++ s5 ++ s6 ++ s7 ++ s8 ++ s9 ++ s10 =
        ([] : List Nat) ++ (s1 ++ (s2 ++ s3 ++ s4 ++ s5 ++ s6 ++ s7 ++ s8 ++ s9 ++ s10)) := by
      simp [List.append_assoc]
    rw [h, show (0 : Nat) = ([] : List Nat).length from rfl]
    exact extract_mid _ _ _
  · have h : s1 ++ s2 ++ s3 ++ s4 ++ s5 ++ s6 ++ s7 ++ s8 ++ s9 ++ s10 =
        s1 ++ (s2 ++ (s3 ++ s4 ++ s5 ++ s6 ++ s7 ++ s8 ++ s9 ++ s10)) := by
      simp [List.append_assoc]
    rw [h]
    exact extract_mid _ _ _
  · have h : s1 ++ s2 ++ s3 ++ s4 ++ s5 ++ s6 ++ s7 ++ s8 ++ s9 ++ s10 =
        (s1 ++ s2) ++ (s3 ++ (s4 ++ s5 ++ s6 ++ s7 ++ s8 ++ s9 ++ s10)) := by
      simp [List.append_assoc]
    rw [h, show s1.length + s2.length = (s1 ++ s2).length by simp_arith]
    exact extract_mid _ _ _
  · have h : s1 ++ s2 ++ s3 ++ s4 ++ s5 ++ s6 ++ s7 ++ s8 ++ s9 ++ s10 =
        (s1 ++ s2 ++ s3) ++ (s4 ++ (s5 ++ s6 ++ s7 ++ s8 ++ s9 ++ s10)) := by
      simp [List.append_assoc]
    rw [h, show s1.length + s2.length + s3.length = (s1 ++ s2 ++ s3).length by simp_arith]
    exact extract_mid _ _ _
  · have h : s1 ++ s2 ++ s3 ++ s4 ++ s5 ++ s6 ++ s7 ++ s8 ++ s9 ++ s10 =
        (s1 ++ s2 ++ s3 ++ s4) ++ (s5 ++ (s6 ++ s7 ++ s8 ++ s9 ++ s10)) := by
      simp [List.append_assoc]
    rw [h, show s1.length + s2.length + s3.length + s4.length =
      (s1 ++ s2 ++ s3 ++ s4).length by simp_arith]
    exact extract_mid _ _ _
  · have h : s1 ++ s2 ++ s3 ++ s4 ++ s5 ++ s6 ++ s7 ++ s8 ++ s9 ++ s10 =
        (s1 ++ s2 ++ s3 ++ s4 ++ s5) ++ (s6 ++ (s7 ++ s8 ++ s9 ++ s10)) := by
      simp [List.append_assoc]
    rw [h, show s1.length + s2.length + s3.length + s4.length + s5.length =
      (s1 ++ s2 ++ s3 ++ s4 ++ s5).length by simp_arith]
    exact extract_mid _ _ _
  · have h : s1 ++ s2 ++ s3 ++ s4 ++ s5 ++ s6 ++ s7 ++ s8 ++ s9 ++ s10 =
        (s1 ++ s2 ++ s3 ++ s4 ++ s5 ++ s6) ++ (s7 ++ (s8 ++ s9 ++ s10)) := by
      simp [List.append_assoc]
    rw [h, show s1.length + s2.length + s3.length + s4.length + s5.length + s6.length =
      (s1 ++ s2 ++ s3 ++ s4 ++ s5 ++ s6).length by simp_arith]
    exact extract_mid _ _ _
  · have h : s1 ++ s2 ++ s3 ++ s4 ++ s5 ++ s6 ++ s7 ++ s8 ++ s9 ++ s10 =
        (s1 ++ s2 ++ s3 ++ s4 ++ s5 ++ s6 ++ s7) ++ (s8 ++ (s9 ++ s10)) := by
      simp [List.append_assoc]
    rw [h, show s1.length + s2.length + s3.length + s4.length + s5.length + s6.length +
      s7.length = (s1 ++ s2 ++ s3 ++ s4 ++ s5 ++ s6 ++ s7).length by simp_arith]
    exact extract_mid _ _ _
  · have h : s1 ++ s2 ++ s3 ++ s4 ++ s5 ++ s6 ++ s7 ++ s8 ++ s9 ++ s10 =
        (s1 ++ s2 ++ s3 ++ s4 ++ s5 ++ s6 ++ s7 ++ s8) ++ (s9 ++ s10) := by
      simp [List.append_assoc]
    rw [h, show s1.length + s2.length + s3.length + s4.length + s5.length + s6.length +
      s7.length + s8.length = (s1 ++ s2 ++ s3 ++ s4 ++ s5 ++ s6 ++ s7 ++ s8).length by simp_arith]
    exact extract_mid _ _ _
  · have h : s1 ++ s2 ++ s3 ++ s4 ++ s5 ++ s6 ++ s7 ++ s8 ++ s9 ++ s10 =
        (s1 ++ s2 ++ s3 ++ s4 ++ s5 ++ s6 ++ s7 ++ s8 ++ s9) ++ (s10 ++ []) := by
      simp [List.append_assoc]
    rw [h, show s1.length + s2.length + s3.length + s4.length + s5.length + s6.length +
      s7.length + s8.length + s9.length =
      (s1 ++ s2 ++ s3 ++ s4 ++ s5 ++ s6 ++ s7 ++ s8 ++ s9).length by simp_arith]
    exact extract_mid _ _ _

/-- C3 (amended): the sections of an encoded buffer appear in the §6
order, each at exactly the offset where the previous section ends, with
two paddings: the string-table padding to a multiple of 4, and a 4-byte
zero alignment pad between the arc-offset table and the arc data,
present exactly when coordinates are 8-byte floats and the offset after
the arc-offset table is not a multiple of 8. -/
theorem c3_layout (jsonEnc : List (List Nat × Geom) → List Nat) (t : Topology Geom) :
    readBytesAt? (encode jsonEnc t) 0 24 = some (headerBytes t)
    ∧ readBytesAt? (encode jsonEnc t) 24 (transformBytes t).length = some (transformBytes t)
    ∧ readBytesAt? (encode jsonEnc t) (24 + (transformBytes t).length) (bboxBytes t).length
        = some (bboxBytes t)
    ∧ 24 + (transformBytes t).length + (bboxBytes t).length = stringTableStart t
    ∧ readBytesAt? (encode jsonEnc t) (stringTableStart t) (buildStringTable t).length
        = some (buildStringTable t)
    ∧ readBytesAt? (encode jsonEnc t) (stringTableStart t + (buildStringTable t).length)
        (pad4 (buildStringTable t).length - (buildStringTable t).length)
        = some (List.replicate
            (pad4 (buildStringTable t).length - (buildStringTable t).length) 0)
    ∧ readBytesAt? (encode jsonEnc t) (arcOffsetsStart t) ((numArcs t + 1) * 4)
        = some (arcOffsetsBytes t)
    ∧ readBytesAt? (encode jsonEnc t) (afterArcOffsets t)
        (arcDataStart t - afterArcOffsets t)
        = some (List.replicate (arcDataStart t - afterArcOffsets t) 0)
    ∧ arcDataStart t - afterArcOffsets t
        = (if bytesPerCoord t = 8 ∧ afterArcOffsets t % 8 ≠ 0 then 4 else 0)
    ∧ readBytesAt? (encode jsonEnc t) (arcDataStart t) (arcDataSize t)
        = some (arcDataBytes t)
    ∧ readBytesAt? (encode jsonEnc t) (arcDataStart t + arcDataSize t) 4
        = some (be 4 (jsonEnc t.objects).length)
    ∧ readBytesAt? (encode jsonEnc t) (arcDataStart t + arcDataSize t + 4)
        (jsonEnc t.objects).length = some (jsonEnc t.objects)
    ∧ (encode jsonEnc t).length =
        arcDataStart t + arcDataSize t + 4 + (jsonEnc t.objects).length := by
  obtain ⟨H1, H2, H3, H4, H5, H6, H7, H8, H9, H10⟩ :=
    concat10_extract (headerBytes t) (transformBytes t) (bboxBytes t)
      (buildStringTable t)
      (List.replicate (pad4 (buildStringTable t).length - (buildStringTable t).length) 0)
      (arcOffsetsBytes t)
      (List.replicate (arcDataStart t - afterArcOffsets t) 0)
      (arcDataBytes t) (be 4 (jsonEnc t.objects).length) (jsonEnc t.objects)
  have hst : 24 + (transformBytes t).length + (bboxBytes t).length = stringTableStart t := by
    rw [length_transformBytes, length_bboxBytes]
    rfl
  have hao : stringTableStart t + (buildStringTable t).length +
      (pad4 (buildStringTable t).length - (buildStringTable t).length) =
      arcOffsetsStart t := by
    have := le_pad4 (buildStringTable t).length
    unfold arcOffsetsStart
    omega
  have haao : arcOffsetsStart t + (numArcs t + 1) * 4 = afterArcOffsets t := rfl
  have hads : afterArcOffsets t + (arcDataStart t - afterArcOffsets t) = arcDataStart t := by
    have := afterArcOffsets_le_arcDataStart t
    omega
  have hpad : arcDataStart t - afterArcOffsets t =
      (if bytesPerCoord t = 8 ∧ afterArcOffsets t % 8 ≠ 0 then 4 else 0) := by
    unfold arcDataStart
    by_cases hc : bytesPerCoord t = 8 ∧ afterArcOffsets t % 8 ≠ 0
    · rw [if_pos hc, if_pos hc]; omega
    · rw [if_neg hc, if_neg hc]; omega
  simp only [length_headerBytes, List.length_replicate, length_arcOffsetsBytes,
    length_arcDataBytes, length_be] at H1 H2 H3 H4 H5 H6 H7 H8 H9 H10
  rw [hst] at H4 H5 H6 H7 H8 H9 H10
  rw [hao] at H6 H7 H8 H9 H10
  rw [haao] at H7 H8 H9 H10
  rw [hads] at H8 H9 H10
  exact ⟨H1, H2, H3, hst, H4, H5, H6, H7, hpad, H8, H9, H10, length_encode jsonEnc t⟩

/-- The buffer splits around the arc-offset table. -/
theorem encode_split_arcOffsets (jsonEnc : List (List Nat × Geom) → List Nat)
    (t : Topology Geom) :
    encode jsonEnc t =
      (headerBytes t ++ transformBytes t ++ bboxBytes t ++ buildStringTable t ++
        List.replicate (pad4 (buildStringTable t).length - (buildStringTable t).length) 0) ++
      ((arcOffsetsList t.arcs).flatMap (le 4) ++
        (List.replicate (arcDataStart t - afterArcOffsets t) 0 ++
          (arcDataBytes t ++ (be 4 (jsonEnc t.objects).length ++ jsonEnc t.objects)))) := by
  simp [encode, arcOffsetsBytes, List.append_assoc]

/-- Length of the prefix in front of the arc-offset table. -/
theorem encode_prefix_length (t : Topology Geom) :
    (headerBytes t ++ transformBytes t ++ bboxBytes t ++ buildStringTable t ++
      List.replicate (pad4 (buildStringTable t).length - (buildStringTable t).length) 0).length
      = arcOffsetsStart t := by
  have := le_pad4 (buildStringTable t).length
  simp only [List.length_append, length_headerBytes, length_transformBytes,
    length_bboxBytes, List.length_replicate]
  unfold arcOffsetsStart stringTableStart
  omega

/-- Reading the whole arc-offset table back from an encoded buffer yields
the running point offsets, provided the total point count fits 32 bits. -/
theorem encode_arcOffsets_read (jsonEnc : List (List Nat × Geom) → List Nat)
    (t : Topology Geom) (htotal : totalArcPoints t < 4294967296) :
    readU32ArrayLE (encode jsonEnc t) (arcOffsetsStart t) (numArcs t + 1) =
      some (arcOffsetsList t.arcs) := by
  unfold readU32ArrayLE
  rw [if_pos]
  · congr 1
    apply List.ext_getElem
    · simp [arcOffsetsList, length_offsetsFrom, numArcs]
    · intro i hi1 hi2
      have hi : i < (arcOffsetsList t.arcs).length := hi2
      have hlen : i < numArcs t + 1 := by
        simpa [arcOffsetsList, length_offsetsFrom, numArcs] using hi2
      have hrb := readBytesAt?_flatMap (le 4) 4 0 (fun x => length_le 4 x)
        (headerBytes t ++ transformBytes t ++ bboxBytes t ++ buildStringTable t ++
          List.replicate (pad4 (buildStringTable t).length - (buildStringTable t).length) 0)
        (List.replicate (arcDataStart t - afterArcOffsets t) 0 ++
          (arcDataBytes t ++ (be 4 (jsonEnc t.objects).length ++ jsonEnc t.objects)))
        (arcOffsetsList t.arcs) i hi
      rw [encode_prefix_length, ← encode_split_arcOffsets] at hrb
      have htake := readBytesAt?_some_eq _ _ _ _ hrb
      simp only [List.getElem_map, List.getElem_range]
      rw [htake, leVal_le]
      have hentry : (arcOffsetsList t.arcs).getD i 0 ≤ totalArcPoints t := by
        simpa [arcOffsetsList, totalArcPoints] using
          offsetsFrom_le_total 0 t.arcs i
      rw [List.getD_eq_getElem _ 0 hi]  at hentry ⊢
      have : (256 : Nat) ^ 4 = 4294967296 := by norm_num
      rw [this, Nat.mod_eq_of_lt (by omega)]
  · constructor
    · exact arcOffsetsStart_mod4 t
    · rw [length_encode]
      have h1 := afterArcOffsets_le_arcDataStart t
      unfold afterArcOffsets at h1
      omega

/-- C9: the arc-offset table of a buffer produced by `encode` on a
well-formed topology has `numArcs + 1` entries; read back it equals the
running point offsets, which start at 0, end at `totalArcPoints`, are
non-decreasing, and increase between consecutive entries by exactly the
point count of the corresponding arc. -/
theorem c9_offset_table (jsonEnc : List (List Nat × Geom) → List Nat)
    (t : Topology Geom) (hwf : wellFormed t) :
    readU32ArrayLE (encode jsonEnc t) (arcOffsetsStart t) (numArcs t + 1) =
      some (arcOffsetsList t.arcs)
    ∧ (arcOffsetsList t.arcs).length = numArcs t + 1
    ∧ (arcOffsetsList t.arcs).getD 0 0 = 0
    ∧ (arcOffsetsList t.arcs).getD (numArcs t) 0 = totalArcPoints t
    ∧ (∀ i, i < numArcs t →
        (arcOffsetsList t.arcs).getD (i + 1) 0 =
          (arcOffsetsList t.arcs).getD i 0 + (t.arcs.getD i []).length)
    ∧ (∀ i j, i ≤ j → j ≤ numArcs t →
        (arcOffsetsList t.arcs).getD i 0 ≤ (arcOffsetsList t.arcs).getD j 0) := by
  obtain ⟨-, -, -, -, -, htotal, -, -⟩ := hwf
  refine ⟨encode_arcOffsets_read jsonEnc t htotal, ?_, ?_, ?_, ?_, ?_⟩
  · simp [arcOffsetsList, length_offsetsFrom, numArcs]
  · exact offsetsFrom_getD_zero 0 t.arcs
  · simpa [arcOffsetsList, totalArcPoints, numArcs] using offsetsFrom_getD_last 0 t.arcs
  · intro i hi
    exact offsetsFrom_getD_succ 0 t.arcs i hi
  · intro i j hij hj
    exact offsetsFrom_mono 0 t.arcs i j hij hj

set_option maxRecDepth 8000 in
/-- C9 witness: the table of the encoded quantized one-point topology. -/
theorem c9_offset_table_witness :
    readU32ArrayLE (encode jsonEnc0 trTopo) (arcOffsetsStart trTopo) (numArcs trTopo + 1) =
      some (arcOffsetsList trTopo.arcs)
    ∧ (arcOffsetsList trTopo.arcs).getD (numArcs trTopo) 0 = totalArcPoints trTopo := by
  have h := c9_offset_table jsonEnc0 trTopo (by unfold wellFormed trTopo; decide)
  exact ⟨h.1, h.2.2.2.1⟩

/-- Byte length of a stored coordinate. -/
theorem length_coordEnc (t : Topology Geom) (c : Int) :
    (coordEnc t.transform.isSome c).length = bytesPerCoord t := by
  unfold coordEnc bytesPerCoord
  cases t.transform.isSome <;> simp

/-- The flags word is at most 3. -/
theorem flagsOf_lt (t : Topology Geom) : flagsOf t < 65536 := by
  unfold flagsOf FLAG_HAS_TRANSFORM FLAG_HAS_BBOX
  split <;> split <;> norm_num

/-- The buffer splits around the flattened arc data. -/
theorem encode_split_arcData (jsonEnc : List (List Nat × Geom) → List Nat)
    (t : Topology Geom) :
    encode jsonEnc t =
      (headerBytes t ++ transformBytes t ++ bboxBytes t ++ buildStringTable t ++
        List.replicate (pad4 (buildStringTable t).length - (buildStringTable t).length) 0 ++
        arcOffsetsBytes t ++ List.replicate (arcDataStart t - afterArcOffsets t) 0) ++
      ((flatCoords t.arcs).flatMap (coordEnc t.transform.isSome) ++
        (be 4 (jsonEnc t.objects).length ++ jsonEnc t.objects)) := by
  simp [encode, arcDataBytes_eq_flat, List.append_assoc]

/-- Length of the prefix in front of the arc data. -/
theorem encode_prefix_length_arcData (t : Topology Geom) :
    (headerBytes t ++ transformBytes t ++ bboxBytes t ++ buildStringTable t ++
      List.replicate (pad4 (buildStringTable t).length - (buildStringTable t).length) 0 ++
      arcOffsetsBytes t ++ List.replicate (arcDataStart t - afterArcOffsets t) 0).length
      = arcDataStart t := by
  have h1 := le_pad4 (buildStringTable t).length
  have h2 := afterArcOffsets_le_arcDataStart t
  simp only [List.length_append, length_headerBytes, length_transformBytes,
    length_bboxBytes, List.length_replicate, length_arcOffsetsBytes]
  unfold afterArcOffsets arcOffsetsStart stringTableStart at *
  omega

/-- C4 (amended): the header fields and the objects-length prefix are
stored big-endian — reading them back with big-endian reads returns the
logical values — while each arc-offset-table entry and each arc-data
coordinate is stored in the platform's (little-endian) byte order. -/
theorem c4_field_byte_order (jsonEnc : List (List Nat × Geom) → List Nat)
    (t : Topology Geom) (hwf : wellFormed t)
    (hobj : (jsonEnc t.objects).length < 4294967296) :
    readU32BE (encode jsonEnc t) 0 = some MAGIC
    ∧ readU16BE (encode jsonEnc t) 4 = some VERSION
    ∧ readU16BE (encode jsonEnc t) 6 = some (flagsOf t)
    ∧ readU32BE (encode jsonEnc t) 8 = some (numArcs t)
    ∧ readU32BE (encode jsonEnc t) 12 = some (totalArcPoints t)
    ∧ readU32BE (encode jsonEnc t) 16 = some t.objects.length
    ∧ readU32BE (encode jsonEnc t) 20 = some (buildStringTable t).length
    ∧ readU32BE (encode jsonEnc t) (arcDataStart t + arcDataSize t)
        = some (jsonEnc t.objects).length
    ∧ (∀ tr, t.transform = some tr →
        readF64BE (encode jsonEnc t) 24 = some tr.scale.1
        ∧ readF64BE (encode jsonEnc t) 32 = some tr.scale.2
        ∧ readF64BE (encode jsonEnc t) 40 = some tr.translate.1
        ∧ readF64BE (encode jsonEnc t) 48 = some tr.translate.2)
    ∧ (∀ bb, t.bbox = some bb →
        readF64BE (encode jsonEnc t) (24 + (transformBytes t).length) = some bb.1
        ∧ readF64BE (encode jsonEnc t) (24 + (transformBytes t).length + 8) = some bb.2.1
        ∧ readF64BE (encode jsonEnc t) (24 + (transformBytes t).length + 16) = some bb.2.2.1
        ∧ readF64BE (encode jsonEnc t) (24 + (transformBytes t).length + 24) = some bb.2.2.2)
    ∧ (∀ i, i ≤ numArcs t →
        readBytesAt? (encode jsonEnc t) (arcOffsetsStart t + 4 * i) 4 =
          some (le 4 ((arcOffsetsList t.arcs).getD i 0)))
    ∧ (∀ j, j < (flatCoords t.arcs).length →
        readBytesAt? (encode jsonEnc t) (arcDataStart t + bytesPerCoord t * j)
          (bytesPerCoord t) =
          some (coordEnc t.transform.isSome ((flatCoords t.arcs).getD j 0))) := by
  obtain ⟨-, -, hwfTr, hwfBB, hna, htp, hno, hsts⟩ := hwf
  obtain ⟨H1, H2, H3, H4, H5, H6, H7, -, H9, -⟩ :=
    concat10_extract (be 4 MAGIC) (be 2 VERSION) (be 2 (flagsOf t)) (be 4 (numArcs t))
      (be 4 (totalArcPoints t)) (be 4 t.objects.length) (be 4 (buildStringTable t).length)
      (transformBytes t ++ bboxBytes t ++ buildStringTable t ++
        List.replicate (pad4 (buildStringTable t).length - (buildStringTable t).length) 0 ++
        arcOffsetsBytes t ++ List.replicate (arcDataStart t - afterArcOffsets t) 0 ++
        arcDataBytes t)
      (be 4 (jsonEnc t.objects).length) (jsonEnc t.objects)
  have hsplit : encode jsonEnc t =
      be 4 MAGIC ++ be 2 VERSION ++ be 2 (flagsOf t) ++ be 4 (numArcs t) ++
        be 4 (totalArcPoints t) ++ be 4 t.objects.length ++
        be 4 (buildStringTable t).length ++
        (transformBytes t ++ bboxBytes t ++ buildStringTable t ++
          List.replicate (pad4 (buildStringTable t).length - (buildStringTable t).length) 0 ++
          arcOffsetsBytes t ++ List.replicate (arcDataStart t - afterArcOffsets t) 0 ++
          arcDataBytes t) ++
        be 4 (jsonEnc t.objects).length ++ jsonEnc t.objects := by
    simp [encode, headerBytes, List.append_assoc]
  rw [← hsplit] at H1 H2 H3 H4 H5 H6 H7 H9
  simp only [length_be] at H1 H2 H3 H4 H5 H6 H7 H9
  norm_num at H2 H3 H4 H5 H6 H7
  have h8len : (4 : Nat) + 2 + 2 + 4 + 4 + 4 + 4 + (transformBytes t ++ bboxBytes t ++ buildStringTable t ++
      List.replicate (pad4 (buildStringTable t).length - (buildStringTable t).length) 0 ++
      arcOffsetsBytes t ++ List.replicate (arcDataStart t - afterArcOffsets t) 0 ++
      arcDataBytes t).length = arcDataStart t + arcDataSize t := by
    have h1 := le_pad4 (buildStringTable t).length
    have h2 := afterArcOffsets_le_arcDataStart t
    simp only [List.length_append, length_transformBytes, length_bboxBytes,
      List.length_replicate, length_arcOffsetsBytes, length_arcDataBytes]
    unfold afterArcOffsets arcOffsetsStart stringTableStart at *
    omega
  rw [h8len] at H9
  refine ⟨?_, ?_, ?_, ?_, ?_, ?_, ?_, ?_, ?_, ?_, ?_, ?_⟩
  · unfold readU32BE
    rw [H1, Option.map_some']
    rw [beVal_be]
    norm_num [MAGIC]
  · unfold readU16BE
    rw [H2, Option.map_some']
    rw [beVal_be]
    norm_num [VERSION]
  · unfold readU16BE
    rw [H3, Option.map_some']
    rw [beVal_be]
    have := flagsOf_lt t
    rw [Nat.mod_eq_of_lt (by norm_num; omega)]
  · unfold readU32BE
    rw [H4, Option.map_some']
    rw [beVal_be]
    rw [Nat.mod_eq_of_lt (by norm_num; omega)]
  · unfold readU32BE
    rw [H5, Option.map_some']
    rw [beVal_be]
    rw [Nat.mod_eq_of_lt (by norm_num; omega)]
  · unfold readU32BE
    rw [H6, Option.map_some']
    rw [beVal_be]
    rw [Nat.mod_eq_of_lt (by norm_num; omega)]
  · unfold readU32BE
    rw [H7, Option.map_some']
    rw [beVal_be]
    rw [Nat.mod_eq_of_lt (by norm_num; omega)]
  · unfold readU32BE
    rw [H9, Option.map_some']
    rw [beVal_be]
    rw [Nat.mod_eq_of_lt (by norm_num; omega)]
  · intro tr htr
    simp only [htr] at hwfTr
    obtain ⟨hq1, hq2, hq3, hq4⟩ := hwfTr
    have hsplitT : encode jsonEnc t =
        headerBytes t ++
          ([tr.scale.1, tr.scale.2, tr.translate.1, tr.translate.2].flatMap (be 8) ++
            (bboxBytes t ++ (buildStringTable t ++
              (List.replicate
                  (pad4 (buildStringTable t).length - (buildStringTable t).length) 0 ++
                (arcOffsetsBytes t ++
                  (List.replicate (arcDataStart t - afterArcOffsets t) 0 ++
                    (arcDataBytes t ++
                      (be 4 (jsonEnc t.objects).length ++ jsonEnc t.objects)))))))) := by
      simp [encode, transformBytes, htr, List.append_assoc]
    have hr0 := readBytesAt?_flatMap (be 8) 8 0 (fun x => length_be 8 x) (headerBytes t)
      (bboxBytes t ++ (buildStringTable t ++
        (List.replicate (pad4 (buildStringTable t).length - (buildStringTable t).length) 0 ++
          (arcOffsetsBytes t ++ (List.replicate (arcDataStart t - afterArcOffsets t) 0 ++
            (arcDataBytes t ++ (be 4 (jsonEnc t.objects).length ++ jsonEnc t.objects)))))))
      [tr.scale.1, tr.scale.2, tr.translate.1, tr.translate.2] 0 (by simp)
    have hr1 := readBytesAt?_flatMap (be 8) 8 0 (fun x => length_be 8 x) (headerBytes t)
      (bboxBytes t ++ (buildStringTable t ++
        (List.replicate (pad4 (buildStringTable t).length - (buildStringTable t).length) 0 ++
          (arcOffsetsBytes t ++ (List.replicate (arcDataStart t - afterArcOffsets t) 0 ++
            (arcDataBytes t ++ (be 4 (jsonEnc t.objects).length ++ jsonEnc t.objects)))))))
      [tr.scale.1, tr.scale.2, tr.translate.1, tr.translate.2] 1 (by simp)
    have hr2 := readBytesAt?_flatMap (be 8) 8 0 (fun x => length_be 8 x) (headerBytes t)
      (bboxBytes t ++ (buildStringTable t ++
        (List.replicate (pad4 (buildStringTable t).length - (buildStringTable t).length) 0 ++
          (arcOffsetsBytes t ++ (List.replicate (arcDataStart t - afterArcOffsets t) 0 ++
            (arcDataBytes t ++ (be 4 (jsonEnc t.objects).length ++ jsonEnc t.objects)))))))
      [tr.scale.1, tr.scale.2, tr.translate.1, tr.translate.2] 2 (by simp)
    have hr3 := readBytesAt?_flatMap (be 8) 8 0 (fun x => length_be 8 x) (headerBytes t)
      (bboxBytes t ++ (buildStringTable t ++
        (List.replicate (pad4 (buildStringTable t).length - (buildStringTable t).length) 0 ++
          (arcOffsetsBytes t ++ (List.replicate (arcDataStart t - afterArcOffsets t) 0 ++
            (arcDataBytes t ++ (be 4 (jsonEnc t.objects).length ++ jsonEnc t.objects)))))))
      [tr.scale.1, tr.scale.2, tr.translate.1, tr.translate.2] 3 (by simp)
    rw [← hsplitT, length_headerBytes] at hr0 hr1 hr2 hr3
    simp only [List.getD_cons_zero, List.getD_cons_succ] at hr0 hr1 hr2 hr3
    norm_num at hr0 hr1 hr2 hr3
    refine ⟨?_, ?_, ?_, ?_⟩
    · unfold readF64BE
      rw [hr0, Option.map_some', beVal_be, Nat.mod_eq_of_lt (by norm_num; omega)]
    · unfold readF64BE
      rw [hr1, Option.map_some', beVal_be, Nat.mod_eq_of_lt (by norm_num; omega)]
    · unfold readF64BE
      rw [hr2, Option.map_some', beVal_be, Nat.mod_eq_of_lt (by norm_num; omega)]
    · unfold readF64BE
      rw [hr3, Option.map_some', beVal_be, Nat.mod_eq_of_lt (by norm_num; omega)]
  · intro bb hbb
    simp only [hbb] at hwfBB
    obtain ⟨hq1, hq2, hq3, hq4⟩ := hwfBB
    have hsplitB : encode jsonEnc t =
        (headerBytes t ++ transformBytes t) ++
          ([bb.1, bb.2.1, bb.2.2.1, bb.2.2.2].flatMap (be 8) ++
            (buildStringTable t ++
              (List.replicate
                  (pad4 (buildStringTable t).length - (buildStringTable t).length) 0 ++
                (arcOffsetsBytes t ++
                  (List.replicate (arcDataStart t - afterArcOffsets t) 0 ++
                    (arcDataBytes t ++
                      (be 4 (jsonEnc t.objects).length ++ jsonEnc t.objects))))))) := by
      simp [encode, bboxBytes, hbb, List.append_assoc]
    have hr0 := readBytesAt?_flatMap (be 8) 8 0 (fun x => length_be 8 x)
      (headerBytes t ++ transformBytes t)
      (buildStringTable t ++
        (List.replicate (pad4 (buildStringTable t).length - (buildStringTable t).length) 0 ++
          (arcOffsetsBytes t ++ (List.replicate (arcDataStart t - afterArcOffsets t) 0 ++
            (arcDataBytes t ++ (be 4 (jsonEnc t.objects).length ++ jsonEnc t.objects))))))
      [bb.1, bb.2.1, bb.2.2.1, bb.2.2.2] 0 (by simp)
    have hr1 := readBytesAt?_flatMap (be 8) 8 0 (fun x => length_be 8 x)
      (headerBytes t ++ transformBytes t)
      (buildStringTable t ++
        (List.replicate (pad4 (buildStringTable t).length - (buildStringTable t).length) 0 ++
          (arcOffsetsBytes t ++ (List.replicate (arcDataStart t - afterArcOffsets t) 0 ++
            (arcDataBytes t ++ (be 4 (jsonEnc t.objects).length ++ jsonEnc t.objects))))))
      [bb.1, bb.2.1, bb.2.2.1, bb.2.2.2] 1 (by simp)
    have hr2 := readBytesAt?_flatMap (be 8) 8 0 (fun x => length_be 8 x)
      (headerBytes t ++ transformBytes t)
      (buildStringTable t ++
        (List.replicate (pad4 (buildStringTable t).length - (buildStringTable t).length) 0 ++
          (arcOffsetsBytes t ++ (List.replicate (arcDataStart t - afterArcOffsets t) 0 ++
            (arcDataBytes t ++ (be 4 (jsonEnc t.objects).length ++ jsonEnc t.objects))))))
      [bb.1, bb.2.1, bb.2.2.1, bb.2.2.2] 2 (by simp)
    have hr3 := readBytesAt?_flatMap (be 8) 8 0 (fun x => length_be 8 x)
      (headerBytes t ++ transformBytes t)
      (buildStringTable t ++
        (List.replicate (pad4 (buildStringTable t).length - (buildStringTable t).length) 0 ++
          (arcOffsetsBytes t ++ (List.replicate (arcDataStart t - afterArcOffsets t) 0 ++
            (arcDataBytes t ++ (be 4 (jsonEnc t.objects).length ++ jsonEnc t.objects))))))
      [bb.1, bb.2.1, bb.2.2.1, bb.2.2.2] 3 (by simp)
    rw [← hsplitB] at hr0 hr1 hr2 hr3
    simp only [List.length_append, length_headerBytes, List.getD_cons_zero,
      List.getD_cons_succ] at hr0 hr1 hr2 hr3
    norm_num at hr0 hr1 hr2 hr3
    refine ⟨?_, ?_, ?_, ?_⟩
    · unfold readF64BE
      rw [hr0, Option.map_some', beVal_be, Nat.mod_eq_of_lt (by norm_num; omega)]
    · unfold readF64BE
      rw [hr1, Option.map_some', beVal_be, Nat.mod_eq_of_lt (by norm_num; omega)]
    · unfold readF64BE
      rw [hr2, Option.map_some', beVal_be, Nat.mod_eq_of_lt (by norm_num; omega)]
    · unfold readF64BE
      rw [hr3, Option.map_some', beVal_be, Nat.mod_eq_of_lt (by norm_num; omega)]
  · intro i hi
    have hi2 : i < (arcOffsetsList t.arcs).length := by
      rw [arcOffsetsList, length_offsetsFrom]
      unfold numArcs at hi
      omega
    have hrb := readBytesAt?_flatMap (le 4) 4 0 (fun x => length_le 4 x)
      (headerBytes t ++ transformBytes t ++ bboxBytes t ++ buildStringTable t ++
        List.replicate (pad4 (buildStringTable t).length - (buildStringTable t).length) 0)
      (List.replicate (arcDataStart t - afterArcOffsets t) 0 ++
        (arcDataBytes t ++ (be 4 (jsonEnc t.objects).length ++ jsonEnc t.objects)))
      (arcOffsetsList t.arcs) i hi2
    rw [encode_prefix_length, ← encode_split_arcOffsets] at hrb
    exact hrb
  · intro j hj
    have hrb := readBytesAt?_flatMap (coordEnc t.transform.isSome) (bytesPerCoord t) 0
      (length_coordEnc t)
      (headerBytes t ++ transformBytes t ++ bboxBytes t ++ buildStringTable t ++
        List.replicate (pad4 (buildStringTable t).length - (buildStringTable t).length) 0 ++
        arcOffsetsBytes t ++ List.replicate (arcDataStart t - afterArcOffsets t) 0)
      (be 4 (jsonEnc t.objects).length ++ jsonEnc t.objects)
      (flatCoords t.arcs) j hj
    rw [encode_prefix_length_arcData, ← encode_split_arcData] at hrb
    exact hrb

/-- Inversion for a successful bind in the `Except` monad. -/
theorem exceptBind_ok_iff {ε α β : Type} (x : Except ε α) (f : α → Except ε β) (b : β) :
    (x >>= f) = Except.ok b ↔ ∃ a, x = Except.ok a ∧ f a = Except.ok b := by
  cases x with
  | error e => simp [Bind.bind, Except.bind]
  | ok a => simp [Bind.bind, Except.bind]

/-- Inversion for a successful runtime read. -/
theorem orRangeErr_ok_iff {α : Type} (o : Option α) (a : α) :
    orRangeErr o = Except.ok a ↔ o = some a := by
  cases o <;> simp [orRangeErr]

/-- `pure` in the `Except` monad is `ok`. -/
theorem exceptPure_ok_iff {ε α : Type} (a b : α) :
    (pure a : Except ε α) = Except.ok b ↔ a = b := by
  simp [pure, Except.pure]

/-- Inversion of a successful view construction: the header parse and the
two table reads succeeded and determine the view. -/
theorem mkView_ok_inv (b : List Nat) (v : BinaryTopologyView)
    (hv : mkView b = Except.ok v) :
    ∃ h arcOffs arcData,
      readHeader b = Except.ok h ∧
      readU32ArrayLE b
        (24 + (if (h.flags &&& FLAG_HAS_TRANSFORM) != 0 then 32 else 0) +
          (if (h.flags &&& FLAG_HAS_BBOX) != 0 then 32 else 0) + pad4 h.stringTableSize)
        (h.numArcs + 1) = some arcOffs ∧
      readArcDataEither b ((h.flags &&& FLAG_HAS_TRANSFORM) != 0)
        (24 + (if (h.flags &&& FLAG_HAS_TRANSFORM) != 0 then 32 else 0) +
          (if (h.flags &&& FLAG_HAS_BBOX) != 0 then 32 else 0) + pad4 h.stringTableSize +
          (h.numArcs + 1) * 4) h.totalArcPoints = Except.ok arcData ∧
      v = ⟨(h.flags &&& FLAG_HAS_TRANSFORM) != 0, h.numArcs,
        24 + (if (h.flags &&& FLAG_HAS_TRANSFORM) != 0 then 32 else 0) +
          (if (h.flags &&& FLAG_HAS_BBOX) != 0 then 32 else 0) + pad4 h.stringTableSize,
        24 + (if (h.flags &&& FLAG_HAS_TRANSFORM) != 0 then 32 else 0) +
          (if (h.flags &&& FLAG_HAS_BBOX) != 0 then 32 else 0) + pad4 h.stringTableSize +
          (h.numArcs + 1) * 4,
        arcOffs, arcData⟩ := by
  unfold mkView at hv
  rw [exceptBind_ok_iff] at hv
  obtain ⟨h, hh, hv⟩ := hv
  rw [exceptBind_ok_iff] at hv
  obtain ⟨arcOffs, hao, hv⟩ := hv
  rw [exceptBind_ok_iff] at hv
  obtain ⟨arcData, hdata, hv⟩ := hv
  rw [exceptPure_ok_iff] at hv
  exact ⟨h, arcOffs, arcData, hh, (orRangeErr_ok_iff _ _).mp hao, hdata, hv.symm⟩

/-- Inversion of a successful decode: the header parse and the two table
reads succeeded and determine the arcs of the result. -/
theorem decode_ok_inv (jsonDec : List Nat → Option (List (List Nat × Geom)))
    (b : List Nat) (t : Topology Geom) (hdec : decode jsonDec b = Except.ok t) :
    ∃ h arcOffs arcData,
      readHeader b = Except.ok h ∧
      readU32ArrayLE b
        (24 + (if (h.flags &&& FLAG_HAS_TRANSFORM) != 0 then 32 else 0) +
          (if (h.flags &&& FLAG_HAS_BBOX) != 0 then 32 else 0) + pad4 h.stringTableSize)
        (h.numArcs + 1) = some arcOffs ∧
      readArcDataEither b ((h.flags &&& FLAG_HAS_TRANSFORM) != 0)
        (24 + (if (h.flags &&& FLAG_HAS_TRANSFORM) != 0 then 32 else 0) +
          (if (h.flags &&& FLAG_HAS_BBOX) != 0 then 32 else 0) + pad4 h.stringTableSize +
          (h.numArcs + 1) * 4) h.totalArcPoints = Except.ok arcData ∧
      t.arcs = (List.range h.numArcs).map
        (fun i => buildArc arcData (arcOffs.getD i 0) (arcOffs.getD (i + 1) 0)) := by
  unfold decode at hdec
  rw [exceptBind_ok_iff] at hdec
  obtain ⟨h, hh, hdec⟩ := hdec
  rw [exceptBind_ok_iff] at hdec
  obtain ⟨transform, _htr, hdec⟩ := hdec
  rw [exceptBind_ok_iff] at hdec
  obtain ⟨bbox, _hbb, hdec⟩ := hdec
  rw [exceptBind_ok_iff] at hdec
  obtain ⟨stBytes, _hst, hdec⟩ := hdec
  rw [exceptBind_ok_iff] at hdec
  obtain ⟨arcOffs, hao, hdec⟩ := hdec
  rw [exceptBind_ok_iff] at hdec
  obtain ⟨arcData, hdata, hdec⟩ := hdec
  rw [exceptBind_ok_iff] at hdec
  obtain ⟨objSize, _hos, hdec⟩ := hdec
  rw [exceptBind_ok_iff] at hdec
  obtain ⟨objBytes, _hob, hdec⟩ := hdec
  rw [exceptBind_ok_iff] at hdec
  obtain ⟨objects, _hobjs, hdec⟩ := hdec
  rw [exceptPure_ok_iff] at hdec
  refine ⟨h, arcOffs, arcData, hh, (orRangeErr_ok_iff _ _).mp hao, hdata, ?_⟩
  rw [← hdec]

/-- C7: whenever both `decode` and the view constructor accept a buffer,
the view's `getArcCount` equals the number of decoded arcs and `getArc i`
returns exactly `decode(buffer).arcs[i]` for every index in range. -/
theorem c7_view_decoder_equiv (jsonDec : List Nat → Option (List (List Nat × Geom)))
    (b : List Nat) (t : Topology Geom) (v : BinaryTopologyView)
    (hdec : decode jsonDec b = Except.ok t) (hv : mkView b = Except.ok v) :
    getArcCount v = t.arcs.length ∧
    ∀ i : Nat, i < getArcCount v → getArc v (i : Int) = Except.ok (t.arcs.getD i []) := by
  obtain ⟨h1, ao1, ad1, hh1, hao1, hdata1, harcs⟩ := decode_ok_inv jsonDec b t hdec
  obtain ⟨h2, ao2, ad2, hh2, hao2, hdata2, hveq⟩ := mkView_ok_inv b v hv
  rw [hh1] at hh2
  injection hh2 with hh
  subst hh
  rw [hao1] at hao2
  injection hao2 with hao
  subst hao
  rw [hdata1] at hdata2
  injection hdata2 with hdata
  subst hdata
  have hcount : getArcCount v = h1.numArcs := by
    rw [hveq]
    rfl
  have hlen : t.arcs.length = h1.numArcs := by
    rw [harcs]
    simp
  refine ⟨by rw [hcount, hlen], ?_⟩
  intro i hi
  rw [hcount] at hi
  have harc : t.arcs.getD i [] = buildArc ad1 (ao1.getD i 0) (ao1.getD (i + 1) 0) := by
    rw [harcs, List.getD_eq_getElem _ _ (by simpa using hi)]
    simp
  rw [harc]
  unfold getArc
  rw [hveq]
  rw [if_neg (by push_neg; constructor <;> [omega; (simp [getArcCount] at hcount ⊢; omega)])]
  simp

/-! Replacing the string-table bytes of a buffer: helper facts showing
that every read outside the replaced range is unchanged. -/

theorem surgery_length (b st2 : List Nat) (off n : Nat) (hn : st2.length = n)
    (hb : off + n ≤ b.length) :
    (b.take off ++ st2 ++ b.drop (off + n)).length = b.length := by
  simp only [List.length_append, List.length_take, List.length_drop, hn]
  omega

theorem surgery_take_lo (b st2 : List Nat) (off n m : Nat) (hn : st2.length = n)
    (hb : off + n ≤ b.length) (hm : m ≤ off) :
    (b.take off ++ st2 ++ b.drop (off + n)).take m = b.take m := by
  rw [List.take_append_eq_append_take, List.take_append_eq_append_take]
  have h1 : m - (b.take off ++ st2).length = 0 := by simp [hn]; omega
  have h2 : m - (b.take off).length = 0 := by simp; omega
  rw [h1, h2, List.take_zero, List.take_zero, List.append_nil, List.append_nil,
    List.take_take]
  congr 1
  omega

theorem surgery_drop_hi (b st2 : List Nat) (off n o : Nat) (hn : st2.length = n)
    (hb : off + n ≤ b.length) (ho : off + n ≤ o) :
    (b.take off ++ st2 ++ b.drop (off + n)).drop o = b.drop o := by
  have hlen : (b.take off ++ st2).length = off + n := by
    simp [hn]
    omega
  rw [List.drop_append_eq_append_drop, List.drop_eq_nil_of_le (by rw [hlen]; omega),
    List.nil_append, hlen, List.drop_drop]
  congr 1
  omega

theorem surgery_read_lo (b st2 : List Nat) (off n o k : Nat) (hn : st2.length = n)
    (hb : off + n ≤ b.length) (ho : o + k ≤ off) :
    readBytesAt? (b.take off ++ st2 ++ b.drop (off + n)) o k = readBytesAt? b o k := by
  unfold readBytesAt?
  rw [surgery_length b st2 off n hn hb]
  by_cases hc : o + k ≤ b.length
  · rw [if_pos hc, if_pos hc]
    congr 1
    calc ((b.take off ++ st2 ++ b.drop (off + n)).drop o).take k
        = ((b.take off ++ st2 ++ b.drop (off + n)).take (o + k)).drop o := by
          rw [List.drop_take]
          congr 1
          omega
      _ = (b.take (o + k)).drop o := by
          rw [surgery_take_lo b st2 off n (o + k) hn hb ho]
      _ = (b.drop o).take k := by
          rw [List.drop_take]
          congr 1
          omega
  · rw [if_neg hc, if_neg hc]

theorem surgery_read_hi (b st2 : List Nat) (off n o k : Nat) (hn : st2.length = n)
    (hb : off + n ≤ b.length) (ho : off + n ≤ o) :
    readBytesAt? (b.take off ++ st2 ++ b.drop (off + n)) o k = readBytesAt? b o k := by
  unfold readBytesAt?
  rw [surgery_length b st2 off n hn hb, surgery_drop_hi b st2 off n o hn hb ho]

theorem surgery_read_st (b st2 : List Nat) (off n : Nat) (hn : st2.length = n)
    (hb : off + n ≤ b.length) :
    readBytesAt? (b.take off ++ st2 ++ b.drop (off + n)) off n = some st2 := by
  unfold readBytesAt?
  rw [surgery_length b st2 off n hn hb, if_pos hb]
  congr 1
  have hoff : (b.take off).length = off := by simp; omega
  rw [List.append_assoc, List.drop_append_eq_append_drop,
    List.drop_eq_nil_of_le (by omega), List.nil_append, hoff, Nat.sub_self,
    List.drop_zero, List.take_append_eq_append_take, List.take_of_length_le (by omega),
    hn, Nat.sub_self, List.take_zero, List.append_nil]

theorem surgery_readU32ArrayLE (b st2 : List Nat) (off n o m : Nat) (hn : st2.length = n)
    (hb : off + n ≤ b.length) (ho : off + n ≤ o) :
    readU32ArrayLE (b.take off ++ st2 ++ b.drop (off + n)) o m = readU32ArrayLE b o m := by
  unfold readU32ArrayLE
  rw [surgery_length b st2 off n hn hb]
  by_cases hc : o % 4 = 0 ∧ o + 4 * m ≤ b.length
  · rw [if_pos hc, if_pos hc]
    congr 2
    funext i
    rw [surgery_drop_hi b st2 off n (o + 4 * i) hn hb (by omega)]
  · rw [if_neg hc, if_neg hc]

theorem surgery_readArcDataEither (b st2 : List Nat) (off n : Nat) (hasTr : Bool)
    (o npts : Nat) (hn : st2.length = n) (hb : off + n ≤ b.length) (ho : off + n ≤ o) :
    readArcDataEither (b.take off ++ st2 ++ b.drop (off + n)) hasTr o npts =
      readArcDataEither b hasTr o npts := by
  unfold readArcDataEither
  cases hasTr
  · simp only [Bool.false_eq_true, if_false]
    unfold readF64ArrayLE
    rw [surgery_length b st2 off n hn hb]
    by_cases hc : o % 8 = 0 ∧ o + 8 * (npts * 2) ≤ b.length
    · rw [if_pos hc, if_pos hc]
      congr 3
      funext i
      rw [surgery_drop_hi b st2 off n (o + 8 * i) hn hb (by omega)]
    · rw [if_neg hc, if_neg hc]
  · simp only [if_true]
    unfold readI32ArrayLE
    rw [surgery_length b st2 off n hn hb]
    by_cases hc : o % 4 = 0 ∧ o + 4 * (npts * 2) ≤ b.length
    · rw [if_pos hc, if_pos hc]
      congr 3
      funext i
      rw [surgery_drop_hi b st2 off n (o + 4 * i) hn hb (by omega)]
    · rw [if_neg hc, if_neg hc]

theorem surgery_readHeader (b st2 : List Nat) (off n : Nat) (hn : st2.length = n)
    (hb : off + n ≤ b.length) (h24 : 24 ≤ off) :
    readHeader (b.take off ++ st2 ++ b.drop (off + n)) = readHeader b := by
  unfold readHeader readU32BE readU16BE
  rw [surgery_read_lo b st2 off n 0 4 hn hb (by omega),
    surgery_read_lo b st2 off n 4 2 hn hb (by omega),
    surgery_read_lo b st2 off n 6 2 hn hb (by omega),
    surgery_read_lo b st2 off n 8 4 hn hb (by omega),
    surgery_read_lo b st2 off n 12 4 hn hb (by omega),
    surgery_read_lo b st2 off n 16 4 hn hb (by omega),
    surgery_read_lo b st2 off n 20 4 hn hb (by omega)]

theorem surgery_readTransformOpt (b st2 : List Nat) (off n : Nat) (hasTr : Bool)
    (hn : st2.length = n) (hb : off + n ≤ b.length) (hcond : hasTr = true → 56 ≤ off) :
    readTransformOpt (b.take off ++ st2 ++ b.drop (off + n)) hasTr =
      readTransformOpt b hasTr := by
  cases hasTr
  · rfl
  · have h56 := hcond rfl
    unfold readTransformOpt readTransform readF64BE
    rw [surgery_read_lo b st2 off n 24 8 hn hb (by omega),
      surgery_read_lo b st2 off n (24 + 8) 8 hn hb (by omega),
      surgery_read_lo b st2 off n (24 + 16) 8 hn hb (by omega),
      surgery_read_lo b st2 off n (24 + 24) 8 hn hb (by omega)]

theorem surgery_readBBoxOpt (b st2 : List Nat) (off n : Nat) (hasBB : Bool) (o : Nat)
    (hn : st2.length = n) (hb : off + n ≤ b.length) (hcond : hasBB = true → o + 32 ≤ off) :
    readBBoxOpt (b.take off ++ st2 ++ b.drop (off + n)) hasBB o = readBBoxOpt b hasBB o := by
  cases hasBB
  · rfl
  · have h32 := hcond rfl
    unfold readBBoxOpt readBBox readF64BE
    rw [surgery_read_lo b st2 off n o 8 hn hb (by omega),
      surgery_read_lo b st2 off n (o + 8) 8 hn hb (by omega),
      surgery_read_lo b st2 off n (o + 16) 8 hn hb (by omega),
      surgery_read_lo b st2 off n (o + 24) 8 hn hb (by omega)]

/-- C10: the decoded topology is determined by everything except the
string-table bytes — replacing the string-table section of an accepted
buffer by any equally long byte list yields a buffer that decodes to the
value-equal topology (the table is parsed but its content is dropped). -/
theorem c10_string_table_opaque (jsonDec : List Nat → Option (List (List Nat × Geom)))
    (b st2 : List Nat) (h : Header) (t : Topology Geom)
    (hh : readHeader b = Except.ok h)
    (hn : st2.length = h.stringTableSize)
    (hdec : decode jsonDec b = Except.ok t) :
    decode jsonDec
      (b.take (stringTableOffset h) ++ st2 ++
        b.drop (stringTableOffset h + h.stringTableSize)) = Except.ok t := by
  unfold decode at hdec
  rw [exceptBind_ok_iff] at hdec
  obtain ⟨h0, hh0, hdec⟩ := hdec
  rw [hh] at hh0
  injection hh0 with hh0e
  subst hh0e
  rw [exceptBind_ok_iff] at hdec
  obtain ⟨transform, htr, hdec⟩ := hdec
  rw [exceptBind_ok_iff] at hdec
  obtain ⟨bbox, hbb, hdec⟩ := hdec
  rw [exceptBind_ok_iff] at hdec
  obtain ⟨stBytes, hst, hdec⟩ := hdec
  rw [exceptBind_ok_iff] at hdec
  obtain ⟨arcOffs, hao, hdec⟩ := hdec
  rw [exceptBind_ok_iff] at hdec
  obtain ⟨arcData, hdata, hdec⟩ := hdec
  rw [exceptBind_ok_iff] at hdec
  obtain ⟨objSize, hos, hdec⟩ := hdec
  rw [exceptBind_ok_iff] at hdec
  obtain ⟨objBytes, hob, hdec⟩ := hdec
  rw [exceptBind_ok_iff] at hdec
  obtain ⟨objects, hobjs, hdec⟩ := hdec
  have hstb := (orRangeErr_ok_iff _ _).mp hst
  have hbound : stringTableOffset h + h.stringTableSize ≤ b.length := by
    have hle := readBytesAt?_some_le _ _ _ _ hstb
    unfold stringTableOffset
    exact hle
  have hpadle := le_pad4 h.stringTableSize
  unfold decode
  rw [exceptBind_ok_iff]
  refine ⟨h, ?_, ?_⟩
  · rw [surgery_readHeader b st2 _ _ hn hbound (by unfold stringTableOffset; omega)]
    exact hh
  rw [exceptBind_ok_iff]
  refine ⟨transform, ?_, ?_⟩
  · rw [surgery_readTransformOpt b st2 _ _ _ hn hbound ?_]
    · exact htr
    · intro htrx
      unfold stringTableOffset
      simp only [htrx, if_true]
      omega
  rw [exceptBind_ok_iff]
  refine ⟨bbox, ?_, ?_⟩
  · rw [surgery_readBBoxOpt b st2 _ _ _ _ hn hbound ?_]
    · exact hbb
    · intro hbbx
      unfold stringTableOffset
      simp only [hbbx, if_true]
      omega
  rw [exceptBind_ok_iff]
  refine ⟨st2, ?_, ?_⟩
  · rw [show ((24 : Nat) + (if (h.flags &&& FLAG_HAS_TRANSFORM) != 0 then 32 else 0) +
        (if (h.flags &&& FLAG_HAS_BBOX) != 0 then 32 else 0)) = stringTableOffset h from rfl,
      surgery_read_st b st2 _ _ hn hbound]
    rfl
  rw [exceptBind_ok_iff]
  refine ⟨arcOffs, ?_, ?_⟩
  · rw [surgery_readU32ArrayLE b st2 _ _ _ _ hn hbound
      (by unfold stringTableOffset; omega)]
    exact hao
  rw [exceptBind_ok_iff]
  refine ⟨arcData, ?_, ?_⟩
  · rw [surgery_readArcDataEither b st2 _ _ _ _ _ hn hbound
      (by unfold stringTableOffset; omega)]
    exact hdata
  rw [exceptBind_ok_iff]
  refine ⟨objSize, ?_, ?_⟩
  · unfold readU32BE at hos ⊢
    rw [surgery_read_hi b st2 _ _ _ _ hn hbound (by unfold stringTableOffset; omega)]
    exact hos
  rw [exceptBind_ok_iff]
  refine ⟨objBytes, ?_, ?_⟩
  · rw [surgery_read_hi b st2 _ _ _ _ hn hbound (by unfold stringTableOffset; omega)]
    exact hob
  rw [exceptBind_ok_iff]
  exact ⟨objects, hobjs, hdec⟩

set_option maxRecDepth 8000 in
/-- C10 witness: replacing the 3-byte string table of the encoded
quantized topology with one named object by the bytes `[7,8,9]` decodes
to the same topology. -/
theorem c10_string_table_opaque_witness :
    decode jsonDec0
      ((encode jsonEnc0 nameTopo).take (stringTableOffset ⟨1, 1, 1, 1, 3⟩) ++ [7, 8, 9] ++
        (encode jsonEnc0 nameTopo).drop (stringTableOffset ⟨1, 1, 1, 1, 3⟩ + 3)) =
      Except.ok trTopo :=
  c10_string_table_opaque jsonDec0 (encode jsonEnc0 nameTopo) [7, 8, 9]
    ⟨1, 1, 1, 1, 3⟩ trTopo (by decide) (by decide) (by decide)

set_option maxRecDepth 8000 in
/-- C7 witness: decode and view agree on the encoded quantized one-point
topology. -/
theorem c7_view_decoder_equiv_witness :
    getArcCount trView = trTopo.arcs.length ∧
    getArc trView ((0 : Nat) : Int) = Except.ok (trTopo.arcs.getD 0 []) := by
  have h := c7_view_decoder_equiv jsonDec0 (encode jsonEnc0 trTopo) trTopo trView
    (by decide) (by decide)
  exact ⟨h.1, h.2 0 (by decide)⟩

set_option maxRecDepth 8000 in
/-- C4 witness: the amended byte-order statement evaluated on the
quantized one-point topology. -/
theorem c4_field_byte_order_witness :
    readU32BE (encode jsonEnc0 trTopo) 0 = some MAGIC
    ∧ readF64BE (encode jsonEnc0 trTopo) 24 = some 100
    ∧ readBytesAt? (encode jsonEnc0 trTopo) (arcOffsetsStart trTopo + 4 * 1) 4 =
        some (le 4 ((arcOffsetsList trTopo.arcs).getD 1 0)) := by
  have h := c4_field_byte_order jsonEnc0 trTopo (by unfold wellFormed trTopo; decide)
    (by decide)
  obtain ⟨w1, -, -, -, -, -, -, -, wtr, -, wtab, -⟩ := h
  exact ⟨w1, (wtr ⟨(100, 200), (300, 400)⟩ rfl).1, wtab 1 (by decide)⟩

/-- C8: for a successfully constructed view, `getArc` raises `IndexError`
exactly when the index is negative or at least `arcCount`, and returns an
arc for every index in range. -/
theorem c8_getArc_bounds (b : List Nat) (v : BinaryTopologyView) (index : Int)
    (_hv : mkView b = Except.ok v) :
    (getArc v index = Except.error (ViewError.indexError index) ↔
      index < 0 ∨ (getArcCount v : Int) ≤ index)
    ∧ (0 ≤ index → index < (getArcCount v : Int) →
        ∃ arc, getArc v index = Except.ok arc) := by
  unfold getArc getArcCount
  constructor
  · by_cases h : index < 0 ∨ ((v.numArcs : Int) ≤ index)
    · simp [h]
    · simp [h]
  · intro h1 h2
    rw [if_neg (by omega)]
    exact ⟨_, rfl⟩

set_option maxRecDepth 8000 in
/-- C8 witness: on the concrete one-arc view, index -1 and index 1 raise
`IndexError` and index 0 returns an arc. -/
theorem c8_getArc_bounds_witness :
    (getArc trView (-1) = Except.error (ViewError.indexError (-1)) ∧
     getArc trView 1 = Except.error (ViewError.indexError 1)) ∧
    ∃ arc, getArc trView 0 = Except.ok arc := by
  have hneg := c8_getArc_bounds (encode jsonEnc0 trTopo) trView (-1) (by decide)
  have hhi := c8_getArc_bounds (encode jsonEnc0 trTopo) trView 1 (by decide)
  have hok := c8_getArc_bounds (encode jsonEnc0 trTopo) trView 0 (by decide)
  exact ⟨⟨hneg.1.mpr (by decide), hhi.1.mpr (by decide)⟩, hok.2 (by decide) (by decide)⟩

end Topobin
